import Mathlib

/-!
DiligentCore: shader readiness, deferred release and the multithreaded creation test.

A shallow embedding of

* `ShaderD3DBase` (`Graphics/GraphicsEngineD3DBase/include/ShaderD3DBase.hpp`):
  `GetBytecode`, `GetStatus`, `GetD3DBytecode`;
* the destructor of `BottomLevelASD3D12Impl`
  (`Graphics/GraphicsEngineD3D12/src/BottomLevelASD3D12Impl.cpp`);
* the creation work of `MultithreadedResourceCreationTest`
  (`UnitTests/DiligentCoreAPITest/src/MTResourceCreationTest.cpp`).

Objects that live behind an interface pointer (`IAsyncTask`, `ID3DBlob`) are kept
abstract: their methods are fields of an interface structure, and tasks act on an
explicit world state that worker threads may advance between calls. Calls made on a
compile task, on the render device and on the native resource are recorded in call
logs, so that "which calls were made, in which order" is part of each result.
-/

namespace Diligent

/-! ## ShaderD3DBase -/

/-- Shader status values that `ShaderD3DBase::GetStatus` can return. -/
inductive SHADER_STATUS
  | SHADER_STATUS_COMPILING
  | SHADER_STATUS_READY
  | SHADER_STATUS_FAILED
  deriving DecidableEq, Repr

/-- The part of `IAsyncTask` (declared in `ThreadPool.h`) that `ShaderD3DBase` uses.
Tasks live in a world `World` that worker threads advance; `Task` is the handle type.
`ASYNC_TASK_STATUS` values are represented by their integer value, and the enumerator
`ASYNC_TASK_STATUS_RUNNING`, whose declaration is outside the embedded sources, is a
field of the interface. -/
structure IAsyncTask (World Task : Type) where
  /-- Integer value of the enumerator the status is compared against. -/
  ASYNC_TASK_STATUS_RUNNING : Nat
  /-- Blocking wait on the task: `IAsyncTask::WaitForCompletion()`. -/
  WaitForCompletion : Task → World → World
  /-- Status read: `IAsyncTask::GetStatus() const`. -/
  GetStatus : Task → World → Nat
  /-- Reference drop performed by `RefCntAutoPtr::Release()`. -/
  Release : Task → World → World

/-- Calls made through the `m_pCompileTask` pointer. -/
inductive TaskCall (Task : Type)
  | WaitForCompletion (t : Task)
  | GetStatus (t : Task)
  | Release (t : Task)
  deriving DecidableEq, Repr

/-- The part of `ID3DBlob` that `ShaderD3DBase` uses. Pointers are addresses, `nullptr`
is `0`. `GetBufferSize` returns a `SIZE_T`, which converts to `Uint64` without loss. -/
structure ID3DBlob (Blob : Type) where
  GetBufferPointer : Blob → Nat
  GetBufferSize : Blob → Nat

/-- Data members of `ShaderD3DBase`: `CComPtr<ID3DBlob> m_pShaderByteCode` and
`RefCntAutoPtr<IAsyncTask> m_pCompileTask`; `none` is the null pointer. -/
structure ShaderD3DBase (Blob Task : Type) where
  m_pShaderByteCode : Option Blob
  m_pCompileTask : Option Task
  deriving DecidableEq, Repr

/-- Outcome of one `GetStatus` call: the returned value, the shader afterwards, the
world afterwards and the calls made on the compile task, in order. -/
structure GetStatusResult (World Blob Task : Type) where
  ret : SHADER_STATUS
  self : ShaderD3DBase Blob Task
  world : World
  calls : List (TaskCall Task)

/-- The final statement of `GetStatus`:
`return m_pShaderByteCode ? SHADER_STATUS_READY : SHADER_STATUS_FAILED;` -/
def statusOfByteCode {Blob : Type} (b : Option Blob) : SHADER_STATUS :=
  if b.isSome then .SHADER_STATUS_READY else .SHADER_STATUS_FAILED

/-- Embedding of `ShaderD3DBase::GetStatus(bool WaitForCompletion)`. -/
def ShaderD3DBase.GetStatus {World Blob Task : Type} (I : IAsyncTask World Task)
    (s : ShaderD3DBase Blob Task) (w : World) (WaitForCompletion : Bool) :
    GetStatusResult World Blob Task :=
  match s.m_pCompileTask with
  | some t =>
    -- if (WaitForCompletion) m_pCompileTask->WaitForCompletion();
    let w1 := if WaitForCompletion then I.WaitForCompletion t w else w
    let c1 := if WaitForCompletion then [TaskCall.WaitForCompletion t] else []
    if I.GetStatus t w1 ≤ I.ASYNC_TASK_STATUS_RUNNING then
      -- return SHADER_STATUS_COMPILING;
      { ret := .SHADER_STATUS_COMPILING, self := s, world := w1,
        calls := c1 ++ [TaskCall.GetStatus t] }
    else
      -- m_pCompileTask.Release();
      let s1 : ShaderD3DBase Blob Task := { s with m_pCompileTask := none }
      { ret := statusOfByteCode s1.m_pShaderByteCode, self := s1,
        world := I.Release t w1,
        calls := c1 ++ [TaskCall.GetStatus t, TaskCall.Release t] }
  | none =>
    { ret := statusOfByteCode s.m_pShaderByteCode, self := s, world := w, calls := [] }

/-- Message of the development check in `GetBytecode` and `GetD3DBytecode`. -/
def bytecodeNotAvailableMsg : String :=
  "Shader bytecode is not available until compilation is complete. Use GetStatus() to check the shader status."

/-- The development check `DEV_CHECK_ERR(!m_pCompileTask, msg)`: the list of error
messages it reports (empty when the checked expression holds). The check reports and
lets execution continue. -/
def devCheckNoCompileTask {Blob Task : Type} (s : ShaderD3DBase Blob Task) : List String :=
  if s.m_pCompileTask.isNone then [] else [bytecodeNotAvailableMsg]

/-- Outcome of `GetBytecode`: development errors reported, the two out-parameters, and
the shader afterwards (the method is `const`). -/
structure GetBytecodeResult (Blob Task : Type) where
  devErrors : List String
  ppBytecode : Nat
  Size : Nat
  self : ShaderD3DBase Blob Task

/-- Embedding of `ShaderD3DBase::GetBytecode(const void** ppBytecode, Uint64& Size) const`. -/
def ShaderD3DBase.GetBytecode {Blob Task : Type} (B : ID3DBlob Blob)
    (s : ShaderD3DBase Blob Task) : GetBytecodeResult Blob Task :=
  match s.m_pShaderByteCode with
  | some b =>
    { devErrors := devCheckNoCompileTask s, ppBytecode := B.GetBufferPointer b,
      Size := B.GetBufferSize b, self := s }
  | none =>
    { devErrors := devCheckNoCompileTask s, ppBytecode := 0, Size := 0, self := s }

/-- Outcome of `GetD3DBytecode`: development errors reported, the returned blob
pointer, and the shader afterwards (the method is `const`). -/
structure GetD3DBytecodeResult (Blob Task : Type) where
  devErrors : List String
  ret : Option Blob
  self : ShaderD3DBase Blob Task

/-- Embedding of `ShaderD3DBase::GetD3DBytecode() const`. -/
def ShaderD3DBase.GetD3DBytecode {Blob Task : Type}
    (s : ShaderD3DBase Blob Task) : GetD3DBytecodeResult Blob Task :=
  { devErrors := devCheckNoCompileTask s, ret := s.m_pShaderByteCode, self := s }

/-- One step of a client run: worker threads advance the world of tasks (`env`), then
the client calls `GetStatus` with the given flag. The bytecode member is written by
nobody during the run. -/
structure StatusCall (World : Type) where
  env : World → World
  WaitForCompletion : Bool

/-- Values returned by a sequence of `GetStatus` calls, in call order. -/
def runGetStatus {World Blob Task : Type} (I : IAsyncTask World Task)
    (s : ShaderD3DBase Blob Task) (w : World) :
    List (StatusCall World) → List SHADER_STATUS
  | [] => []
  | c :: cs =>
    let r := s.GetStatus I (c.env w) c.WaitForCompletion
    r.ret :: runGetStatus I r.self r.world cs

/-- Shader state after a sequence of `GetStatus` calls. -/
def shaderAfter {World Blob Task : Type} (I : IAsyncTask World Task)
    (s : ShaderD3DBase Blob Task) (w : World) :
    List (StatusCall World) → ShaderD3DBase Blob Task
  | [] => s
  | c :: cs =>
    let r := s.GetStatus I (c.env w) c.WaitForCompletion
    shaderAfter I r.self r.world cs

/-- A small concrete task interface used to exercise the definitions: the world is the
status value of the single task, `WaitForCompletion` drives it to `4`, the running
threshold is `2`. -/
def demoTask : IAsyncTask Nat Unit where
  ASYNC_TASK_STATUS_RUNNING := 2
  WaitForCompletion := fun _ w => if w ≤ 2 then 4 else w
  GetStatus := fun _ w => w
  Release := fun _ w => w

/-- A small concrete blob interface: a blob is a pair (address, size). -/
def demoBlob : ID3DBlob (Nat × Nat) where
  GetBufferPointer := fun b => b.1
  GetBufferSize := fun b => b.2

/-! ## BottomLevelASD3D12Impl: destruction -/

/-- The field of `BottomLevelASDesc` the destructor reads (`Uint64 CommandQueueMask`). -/
structure BottomLevelASDesc where
  CommandQueueMask : Nat
  deriving DecidableEq, Repr

/-- Data members of `BottomLevelASD3D12Impl` the destructor touches: `m_Desc` and
`CComPtr<ID3D12Resource> m_pd3d12Resource` (`none` is the null pointer). -/
structure BottomLevelASD3D12Impl (Resource : Type) where
  m_Desc : BottomLevelASDesc
  m_pd3d12Resource : Option Resource
  deriving DecidableEq, Repr

/-- Calls that can reach the native resource while the object is destroyed: the hand-off
to the render device, and a direct `ID3D12Resource::Release()` made by the destructor of
the `CComPtr` member when it still holds the resource. -/
inductive D3D12Call (Resource : Type)
  | SafeReleaseDeviceObject (Object : Option Resource) (QueueMask : Nat)
  | Release (r : Resource)
  deriving DecidableEq, Repr

/-- Modelled from the spec: `RenderDeviceD3D12Impl::SafeReleaseDeviceObject(Object&&,
QueueMask)` is declared outside the embedded sources. By the data model of the
specification the native resource is exclusively owned by the deferred release queue
once handed off and no backend call happens synchronously: the call takes the resource
out of the pointer it is given by rvalue reference (first component: what is left in
that pointer) and is recorded together with its queue mask (second component). -/
def SafeReleaseDeviceObject {Resource : Type} (Object : Option Resource) (QueueMask : Nat) :
    Option Resource × List (D3D12Call Resource) :=
  (none, [D3D12Call.SafeReleaseDeviceObject Object QueueMask])

/-- Destructor of a `CComPtr` member: `if (p) p->Release();`. -/
def CComPtr.destroy {Resource : Type} (p : Option Resource) : List (D3D12Call Resource) :=
  match p with
  | some r => [D3D12Call.Release r]
  | none => []

/-- Outcome of destroying a `BottomLevelASD3D12Impl`: the object as the destructor body
leaves it, and all calls made, body first, member destruction after. -/
structure DestroyResult (Resource : Type) where
  self : BottomLevelASD3D12Impl Resource
  calls : List (D3D12Call Resource)

/-- Embedding of `BottomLevelASD3D12Impl::~BottomLevelASD3D12Impl()`: the body
`pDeviceD3D12Impl->SafeReleaseDeviceObject(std::move(m_pd3d12Resource), m_Desc.CommandQueueMask);`
followed by the destruction of the member `m_pd3d12Resource`. -/
def BottomLevelASD3D12Impl.destroy {Resource : Type} (o : BottomLevelASD3D12Impl Resource) :
    DestroyResult Resource :=
  let r := SafeReleaseDeviceObject o.m_pd3d12Resource o.m_Desc.CommandQueueMask
  let o1 : BottomLevelASD3D12Impl Resource := { o with m_pd3d12Resource := r.1 }
  { self := o1, calls := r.2 ++ CComPtr.destroy o1.m_pd3d12Resource }

/-- Number of hand-offs to `SafeReleaseDeviceObject` in a call log. -/
def countSafeRelease {Resource : Type} (l : List (D3D12Call Resource)) : Nat :=
  l.countP (fun c => match c with
    | D3D12Call.SafeReleaseDeviceObject _ _ => true
    | D3D12Call.Release _ => false)

/-- Number of direct native releases in a call log. -/
def countDirectRelease {Resource : Type} (l : List (D3D12Call Resource)) : Nat :=
  l.countP (fun c => match c with
    | D3D12Call.SafeReleaseDeviceObject _ _ => false
    | D3D12Call.Release _ => true)

/-! ## MultithreadedResourceCreationTest -/

/-- Constant `NumBuffersToCreate` of the test fixture. -/
def NumBuffersToCreate : Nat := 10

/-- Constant `NumTexturesToCreate` of the test fixture. -/
def NumTexturesToCreate : Nat := 5

/-- Constant `NumPSOToCreate` of the test fixture. -/
def NumPSOToCreate : Nat := 2

/-- Constant `NumIterations` of the test fixture: `10` when `_DEBUG` is defined, `100`
otherwise. -/
def NumIterations (debug : Bool) : Nat :=
  if debug then 10 else 100

/-- Size of `m_Threads` after `m_Threads.resize(std::max(numCores, 4u))`, where
`numCores` is `std::thread::hardware_concurrency()`. -/
def numThreads (numCores : Nat) : Nat :=
  max numCores 4

/-- Shader stages the test creates. -/
inductive SHADER_TYPE
  | SHADER_TYPE_VERTEX
  | SHADER_TYPE_PIXEL
  deriving DecidableEq, Repr

/-- Buffer views the test creates. -/
inductive BUFFER_VIEW_TYPE
  | BUFFER_VIEW_SHADER_RESOURCE
  | BUFFER_VIEW_UNORDERED_ACCESS
  deriving DecidableEq, Repr

/-- What identifies a shader the test creates: its stage and entry point. -/
structure ShaderAttrs where
  ShaderType : SHADER_TYPE
  EntryPoint : String
  deriving DecidableEq, Repr

/-- Creation calls a worker thread makes on the render device (or on a buffer, for
views). `CreateBuffer k` is the call whose result goes to `pBuffer` number `k`. -/
inductive CreateCall
  | CreateBuffer (ppBuffer : Nat)
  | CreateView (ViewType : BUFFER_VIEW_TYPE)
  | CreateTexture
  | CreateShader (Attrs : ShaderAttrs)
  | CreatePipelineState (pVS pPS : ShaderAttrs)
  deriving DecidableEq, Repr

/-- Counted loop `for (Uint32 i = start; i < start + n; ++i) body(i)` collecting the
calls of each round. -/
def forLoopFrom {α : Type} (body : Nat → List α) : Nat → Nat → List α
  | _, 0 => []
  | i, n + 1 => body i ++ forLoopFrom body (i + 1) n

/-- Counted loop `for (Uint32 i = 0; i < n; ++i) body(i)`. -/
def forLoop {α : Type} (n : Nat) (body : Nat → List α) : List α :=
  forLoopFrom body 0 n

/-- Body of the buffer loop of `WorkerThreadFunc`: four buffers and two views. -/
def bufferRound (_i : Nat) : List CreateCall :=
  [ CreateCall.CreateBuffer 1,
    CreateCall.CreateBuffer 2,
    CreateCall.CreateView BUFFER_VIEW_TYPE.BUFFER_VIEW_SHADER_RESOURCE,
    CreateCall.CreateBuffer 3,
    CreateCall.CreateView BUFFER_VIEW_TYPE.BUFFER_VIEW_UNORDERED_ACCESS,
    CreateCall.CreateBuffer 4 ]

/-- Body of the texture loop of `WorkerThreadFunc`: one texture. -/
def textureRound (_i : Nat) : List CreateCall :=
  [ CreateCall.CreateTexture ]

/-- The vertex shader of a pipeline round. -/
def trivialVS : ShaderAttrs :=
  { ShaderType := SHADER_TYPE.SHADER_TYPE_VERTEX, EntryPoint := "VSMain" }

/-- The pixel shader of a pipeline round. -/
def trivialPS : ShaderAttrs :=
  { ShaderType := SHADER_TYPE.SHADER_TYPE_PIXEL, EntryPoint := "PSMain" }

/-- Body of the pipeline loop of `WorkerThreadFunc`: a vertex shader, a pixel shader and
the pipeline state that uses them. -/
def psoRound (_i : Nat) : List CreateCall :=
  [ CreateCall.CreateShader trivialVS,
    CreateCall.CreateShader trivialPS,
    CreateCall.CreatePipelineState trivialVS trivialPS ]

/-- Creation calls of one worker thread in one iteration of `WorkerThreadFunc` (between
the wait on the worker signal and `WaitSiblingWorkerThreads`). -/
def workerIteration : List CreateCall :=
  forLoop NumBuffersToCreate bufferRound
    ++ forLoop NumTexturesToCreate textureRound
    ++ forLoop NumPSOToCreate psoRound

/-- Number of `CreateBuffer` calls in a log. -/
def countBuffers (l : List CreateCall) : Nat :=
  l.countP (fun c => match c with
    | CreateCall.CreateBuffer _ => true
    | _ => false)

/-- Number of `CreateView` calls in a log. -/
def countViews (l : List CreateCall) : Nat :=
  l.countP (fun c => match c with
    | CreateCall.CreateView _ => true
    | _ => false)

/-- Number of `CreateTexture` calls in a log. -/
def countTextures (l : List CreateCall) : Nat :=
  l.countP (fun c => match c with
    | CreateCall.CreateTexture => true
    | _ => false)

/-- Number of `CreateShader` calls for a given stage in a log. -/
def countShaders (ty : SHADER_TYPE) (l : List CreateCall) : Nat :=
  l.countP (fun c => match c with
    | CreateCall.CreateShader a => decide (a.ShaderType = ty)
    | _ => false)

/-- Number of `CreatePipelineState` calls in a log. -/
def countPSOs (l : List CreateCall) : Nat :=
  l.countP (fun c => match c with
    | CreateCall.CreatePipelineState _ _ => true
    | _ => false)

/-- Calls of the main thread in the loop of the test body. -/
inductive MainCall
  | StartWorkerThreadsAndWait (SignalIdx : Int)
  | ReleaseResources
  deriving DecidableEq, Repr

/-- The loop `for (Uint32 iter = 0; iter < NumIterations; ++iter)` of the test body,
started with the given `SignalIdx` and with `n` rounds left. -/
def mainLoopFrom : Int → Nat → List MainCall
  | _, 0 => []
  | SignalIdx, n + 1 =>
    MainCall.StartWorkerThreadsAndWait SignalIdx :: MainCall.ReleaseResources
      :: mainLoopFrom (1 - SignalIdx) n

/-- Calls of the main thread in the iteration loop of `CreateResources`. -/
def mainLoop (debug : Bool) : List MainCall :=
  mainLoopFrom 0 (NumIterations debug)

/-- Number of iterations the main thread starts. -/
def countIterations (l : List MainCall) : Nat :=
  l.countP (fun c => match c with
    | MainCall.StartWorkerThreadsAndWait _ => true
    | MainCall.ReleaseResources => false)

/-- The scenario as the specification words it: 4 threads, and per thread and iteration
10 buffers, 5 textures, 2 pipeline states with one vertex and one pixel shader each,
for 100 iterations. -/
def ScenarioAsWorded (numCores : Nat) (debug : Bool) : Prop :=
  numThreads numCores = 4
    ∧ countBuffers workerIteration = 10
    ∧ countTextures workerIteration = 5
    ∧ countPSOs workerIteration = 2
    ∧ countShaders SHADER_TYPE.SHADER_TYPE_VERTEX workerIteration = 2
    ∧ countShaders SHADER_TYPE.SHADER_TYPE_PIXEL workerIteration = 2
    ∧ countIterations (mainLoop debug) = 100

/-- The claim read on a result of `GetBytecode`: the query fails, that is, it reports an
error instead of completing normally. -/
def QueryFails {Blob Task : Type} (r : GetBytecodeResult Blob Task) : Prop :=
  r.devErrors ≠ []

/-! ## BottomLevelASD3D12Impl: triangle geometries -/

/-- Enumerators of `VALUE_TYPE` the constructor names; every other enumerator of the
type, which is declared outside the embedded sources, is `other` with its integer
value. -/
inductive VALUE_TYPE
  | VT_UNDEFINED
  | VT_INT16
  | VT_FLOAT16
  | VT_FLOAT32
  | other (code : Nat)
  deriving DecidableEq, Repr

/-- The `DXGI_FORMAT` values the vertex format switch can assign. -/
inductive DXGI_FORMAT
  | DXGI_FORMAT_R32G32_FLOAT
  | DXGI_FORMAT_R32G32B32_FLOAT
  | DXGI_FORMAT_R16G16_FLOAT
  | DXGI_FORMAT_R16G16B16A16_FLOAT
  | DXGI_FORMAT_R16G16_SNORM
  | DXGI_FORMAT_R16G16B16A16_SNORM
  deriving DecidableEq, Repr

/-- The formats the comment above the switch lists as valid vertex formats. -/
def validVertexFormats : List DXGI_FORMAT :=
  [ DXGI_FORMAT.DXGI_FORMAT_R32G32_FLOAT, DXGI_FORMAT.DXGI_FORMAT_R32G32B32_FLOAT,
    DXGI_FORMAT.DXGI_FORMAT_R16G16_FLOAT, DXGI_FORMAT.DXGI_FORMAT_R16G16B16A16_FLOAT,
    DXGI_FORMAT.DXGI_FORMAT_R16G16_SNORM, DXGI_FORMAT.DXGI_FORMAT_R16G16B16A16_SNORM ]

/-- Fields of `BLASTriangleDesc` the triangle loop reads. `MaxVertexCount` and
`MaxPrimitiveCount` are `Uint32`, `VertexComponentCount` is `Uint8`. -/
structure BLASTriangleDesc where
  MaxVertexCount : Nat
  VertexValueType : VALUE_TYPE
  VertexComponentCount : Nat
  MaxPrimitiveCount : Nat
  IndexType : VALUE_TYPE
  deriving DecidableEq, Repr

/-- Outcome of the vertex format switch: the value assigned to
`dst.Triangles.VertexFormat` (`none` when no assignment is executed) and the messages of
the `UNEXPECTED` assertions hit. -/
structure VertexFormatResult where
  VertexFormat : Option DXGI_FORMAT
  unexpected : List String
  deriving DecidableEq, Repr

/-- Message of the `UNEXPECTED` in the inner switches. -/
def unexpectedComponentCountMsg : String :=
  "Only 2 and 3 component vertex formats are expected"

/-- Fixed part of the message of the `UNEXPECTED` in the outer switch. -/
def unexpectedValueTypeMsg : String :=
  " is not a valid vertex component type"

/-- Embedding of `switch (src.VertexValueType)` with its nested
`switch (src.VertexComponentCount)`. -/
def vertexFormatSwitch (VertexValueType : VALUE_TYPE) (VertexComponentCount : Nat) :
    VertexFormatResult :=
  match VertexValueType with
  | VALUE_TYPE.VT_FLOAT16 =>
    match VertexComponentCount with
    | 2 => ⟨some DXGI_FORMAT.DXGI_FORMAT_R16G16_FLOAT, []⟩
    | 3 => ⟨some DXGI_FORMAT.DXGI_FORMAT_R16G16B16A16_FLOAT, []⟩
    | _ => ⟨none, [unexpectedComponentCountMsg]⟩
  | VALUE_TYPE.VT_FLOAT32 =>
    match VertexComponentCount with
    | 2 => ⟨some DXGI_FORMAT.DXGI_FORMAT_R32G32_FLOAT, []⟩
    | 3 => ⟨some DXGI_FORMAT.DXGI_FORMAT_R32G32B32_FLOAT, []⟩
    | _ => ⟨none, [unexpectedComponentCountMsg]⟩
  | VALUE_TYPE.VT_INT16 =>
    match VertexComponentCount with
    | 2 => ⟨some DXGI_FORMAT.DXGI_FORMAT_R16G16_SNORM, []⟩
    | 3 => ⟨some DXGI_FORMAT.DXGI_FORMAT_R16G16B16A16_SNORM, []⟩
    | _ => ⟨none, [unexpectedComponentCountMsg]⟩
  | _ => ⟨none, [unexpectedValueTypeMsg]⟩

/-- Fields of `D3D12_RAYTRACING_GEOMETRY_DESC::Triangles` the loop computes from the
source geometry (the remaining fields are set to constants, and `IndexFormat` by a
conversion helper declared outside the embedded sources), together with the `UNEXPECTED`
messages of the round. `VertexCount` and `IndexCount` are `UINT`. -/
structure TriangleGeometry where
  VertexFormat : Option DXGI_FORMAT
  VertexCount : Nat
  IndexCount : Nat
  unexpected : List String
  deriving DecidableEq, Repr

/-- One round of the triangle loop, without the update of the running sum:
`dst.Triangles.IndexCount = src.IndexType == VT_UNDEFINED ? 0 : src.MaxPrimitiveCount * 3`
is computed in `Uint32`. -/
def triangleRound (src : BLASTriangleDesc) : TriangleGeometry :=
  { VertexFormat := (vertexFormatSwitch src.VertexValueType src.VertexComponentCount).VertexFormat,
    VertexCount := src.MaxVertexCount,
    IndexCount :=
      if src.IndexType = VALUE_TYPE.VT_UNDEFINED then 0
      else (src.MaxPrimitiveCount * 3) % 2 ^ 32,
    unexpected := (vertexFormatSwitch src.VertexValueType src.VertexComponentCount).unexpected }

/-- The triangle loop `for (uint32_t i = 0; i < m_Desc.TriangleCount; ++i)`: the
geometries written, and the value of the `Uint32` counter `MaxPrimitiveCount` after the
loop when it holds `acc` before (`MaxPrimitiveCount += src.MaxPrimitiveCount`). -/
def triangleLoop : List BLASTriangleDesc → Nat → List TriangleGeometry × Nat
  | [], acc => ([], acc)
  | src :: rest, acc =>
    let r := triangleLoop rest ((acc + src.MaxPrimitiveCount) % 2 ^ 32)
    (triangleRound src :: r.1, r.2)

/-- Value of `D3D12_RAYTRACING_MAX_PRIMITIVES_PER_BOTTOM_LEVEL_ACCELERATION_STRUCTURE`
in `d3d12.h`. -/
def D3D12_RAYTRACING_MAX_PRIMITIVES_PER_BOTTOM_LEVEL_ACCELERATION_STRUCTURE : Nat :=
  536870912

/-- Outcome of the `m_Desc.pTriangles != nullptr` branch of the constructor: the
geometries, the final counter, and whether the expression of
`VERIFY_EXPR(MaxPrimitiveCount <= D3D12_RAYTRACING_MAX_PRIMITIVES_PER_BOTTOM_LEVEL_ACCELERATION_STRUCTURE)`
holds. -/
structure TriangleBranchResult where
  d3d12Geometries : List TriangleGeometry
  MaxPrimitiveCount : Nat
  verifyExpr : Bool
  deriving DecidableEq, Repr

/-- Embedding of the `m_Desc.pTriangles != nullptr` branch of
`BottomLevelASD3D12Impl::BottomLevelASD3D12Impl`. -/
def triangleBranch (pTriangles : List BLASTriangleDesc) : TriangleBranchResult :=
  let r := triangleLoop pTriangles 0
  { d3d12Geometries := r.1,
    MaxPrimitiveCount := r.2,
    verifyExpr :=
      decide (r.2 ≤ D3D12_RAYTRACING_MAX_PRIMITIVES_PER_BOTTOM_LEVEL_ACCELERATION_STRUCTURE) }

/-- A geometry is well-formed for its C++ type when its `Uint32` fields are below
`2 ^ 32` and its `Uint8` field is below `2 ^ 8`. -/
def BLASTriangleDesc.WellFormed (src : BLASTriangleDesc) : Prop :=
  src.MaxVertexCount < 2 ^ 32 ∧ src.MaxPrimitiveCount < 2 ^ 32 ∧ src.VertexComponentCount < 2 ^ 8

/-- The sum of the primitive counts of a list of geometries, without wrapping. -/
def truePrimitiveCount (l : List BLASTriangleDesc) : Nat :=
  (l.map (fun src => src.MaxPrimitiveCount)).sum

/-! ## WebGPUObjectWrapper -/

/-- The deleter type `HandleName##Deleter` declared by `DECLARE_WEBGPU_WRAPPER`: its
only data member is `bool IsShared = false`. -/
structure WebGPUDeleter where
  IsShared : Bool := false
  deriving DecidableEq, Repr

/-- Calls a wrapper can cause: an invocation `m_ObjectDeleter(Handle)` of a deleter, and
the native `FunctionName##Release(Handle)` a deleter makes. -/
inductive WebGPUCall
  | Deleter (d : WebGPUDeleter) (Handle : Nat)
  | NativeRelease (Handle : Nat)
  deriving DecidableEq, Repr

/-- Embedding of `HandleName##Deleter::operator()(Handle)`:
`if (!IsShared) FunctionName##Release(Handle);`, with the invocation itself recorded
first. -/
def WebGPUDeleter.invoke (d : WebGPUDeleter) (Handle : Nat) : List WebGPUCall :=
  WebGPUCall.Deleter d Handle :: (if !d.IsShared then [WebGPUCall.NativeRelease Handle] else [])

/-- Data members of `WebGPUObjectWrapper`; handles are pointers, `nullptr` is `0`. -/
structure WebGPUObjectWrapper where
  m_ObjectHandle : Nat
  m_ObjectDeleter : WebGPUDeleter
  deriving DecidableEq, Repr

/-- Embedding of `WebGPUObjectWrapper::~WebGPUObjectWrapper()`. -/
def WebGPUObjectWrapper.destroy (w : WebGPUObjectWrapper) : List WebGPUCall :=
  if w.m_ObjectHandle ≠ 0 then w.m_ObjectDeleter.invoke w.m_ObjectHandle else []

/-- Embedding of `WebGPUObjectWrapper::Reset(Handle)`: the wrapper afterwards and the
calls made. -/
def WebGPUObjectWrapper.Reset (w : WebGPUObjectWrapper) (Handle : Nat) :
    WebGPUObjectWrapper × List WebGPUCall :=
  if w.m_ObjectHandle ≠ Handle then
    ({ w with m_ObjectHandle := Handle },
      if w.m_ObjectHandle ≠ 0 then w.m_ObjectDeleter.invoke w.m_ObjectHandle else [])
  else
    (w, [])

/-- Embedding of `WebGPUObjectWrapper::Release()`: the returned handle and the wrapper
afterwards. -/
def WebGPUObjectWrapper.Release (w : WebGPUObjectWrapper) : Nat × WebGPUObjectWrapper :=
  (w.m_ObjectHandle, { w with m_ObjectHandle := 0 })

/-- Wrapper objects in memory, by address. -/
abbrev WrapperHeap := Nat → WebGPUObjectWrapper

/-- Store a wrapper at an address. -/
def WrapperHeap.set (H : WrapperHeap) (p : Nat) (w : WebGPUObjectWrapper) : WrapperHeap :=
  fun a => if a = p then w else H a

/-- Embedding of `WebGPUObjectWrapper::operator=(WebGPUObjectWrapper&& RHS)` called on
the object at address `self` with `RHS` the object at address `RHS` (the two addresses
may be equal): `Reset(RHS.Release()); m_ObjectDeleter = std::move(RHS.m_ObjectDeleter);`.
Moving the deleter copies its `bool`. -/
def WebGPUObjectWrapper.moveAssign (H : WrapperHeap) (self RHS : Nat) :
    WrapperHeap × List WebGPUCall :=
  -- RHS.Release()
  let released := (H RHS).Release
  let H1 := H.set RHS released.2
  -- Reset(...)
  let reset := (H1 self).Reset released.1
  let H2 := H1.set self reset.1
  -- m_ObjectDeleter = std::move(RHS.m_ObjectDeleter);
  let H3 := H2.set self { H2 self with m_ObjectDeleter := (H2 RHS).m_ObjectDeleter }
  (H3, reset.2)

/-- Calls of a client on one wrapper. -/
inductive WrapperOp
  | Reset (Handle : Nat)
  | Release
  deriving DecidableEq, Repr

/-- Outcome of a sequence of client calls followed by the destruction of the wrapper:
all calls caused, in order, and the handles returned by the `Release()` calls. -/
structure WrapperRun where
  calls : List WebGPUCall
  returned : List Nat
  deriving DecidableEq, Repr

/-- Run a sequence of `Reset` and `Release` calls on a wrapper and destroy it. -/
def runWrapper (w : WebGPUObjectWrapper) : List WrapperOp → WrapperRun
  | [] => { calls := w.destroy, returned := [] }
  | WrapperOp.Reset Handle :: ops =>
    let r := runWrapper (w.Reset Handle).1 ops
    { calls := (w.Reset Handle).2 ++ r.calls, returned := r.returned }
  | WrapperOp.Release :: ops =>
    let r := runWrapper w.Release.2 ops
    { calls := r.calls, returned := w.Release.1 :: r.returned }

/-- Handles passed to a deleter in a call log, in order. -/
def deletedHandles : List WebGPUCall → List Nat
  | [] => []
  | WebGPUCall.Deleter _ Handle :: cs => Handle :: deletedHandles cs
  | WebGPUCall.NativeRelease _ :: cs => deletedHandles cs

/-- Handles that a sequence of client calls installs through `Reset` in a wrapper that
currently holds `cur`, in order: a `Reset(Handle)` installs `Handle` when it differs
from the handle held at that moment (otherwise the call assigns nothing). -/
def installsFrom (cur : Nat) : List WrapperOp → List Nat
  | [] => []
  | WrapperOp.Reset Handle :: ops =>
    if cur ≠ Handle then Handle :: installsFrom Handle ops else installsFrom cur ops
  | WrapperOp.Release :: ops => installsFrom 0 ops

/-- The non-null handles installed in a wrapper: the one it is constructed with and
those installed by `Reset`, in order. -/
def installedHandles (w : WebGPUObjectWrapper) (ops : List WrapperOp) : List Nat :=
  (w.m_ObjectHandle :: installsFrom w.m_ObjectHandle ops).filter (fun h => decide (h ≠ 0))

/-! ## MultithreadedResourceCreationTest: the barrier between iterations -/

/-- Modelled from the spec: `ThreadingTools::Signal` (declared in `ThreadSignal.h`,
outside the embedded sources) is the blocking primitive behind the barrier that
synchronizes the iterations of the scenario; the specification says no more about it.
The model follows the call sites (`Trigger(true)`, `Trigger(true, -1)`,
`Wait(true, NumThreads)`, `IsTriggered()`): the state of a signal is the signaled value
(`0` when not triggered) and the number of threads woken since the last trigger. -/
structure Signal where
  m_SignaledValue : Int
  m_NumThreadsAwaken : Int
  deriving DecidableEq, Repr

/-- Modelled from the spec: `Signal::Trigger(NotifyAll, SignalValue)` stores the signal
value; waiting threads may then proceed. -/
def Signal.Trigger (s : Signal) (SignalValue : Int) : Signal :=
  { s with m_SignaledValue := SignalValue }

/-- Modelled from the spec: `Signal::IsTriggered()`. -/
def Signal.IsTriggered (s : Signal) : Bool :=
  decide (s.m_SignaledValue ≠ 0)

/-- Modelled from the spec: `Signal::Wait(AutoReset = true, NumThreadsWaiting)` as one
atomic step. The call blocks (`none`) while the signal is not triggered; otherwise it
returns the signaled value, and the signal is reset once `NumThreadsWaiting` threads
have been woken. -/
def Signal.Wait (s : Signal) (NumThreadsWaiting : Int) : Option (Int × Signal) :=
  if s.m_SignaledValue = 0 then none
  else
    some (s.m_SignaledValue,
      if s.m_NumThreadsAwaken + 1 = NumThreadsWaiting then ⟨0, 0⟩
      else { s with m_NumThreadsAwaken := s.m_NumThreadsAwaken + 1 })

/-- Where a worker thread stands in `WorkerThreadFunc`. -/
inductive WorkerPC
  /-- At `m_WorkerThreadSignal[SignalIdx].Wait(true, NumThreads)`. -/
  | waitSignal
  /-- In the three creation loops. -/
  | create
  /-- In `WaitSiblingWorkerThreads`, at `++m_NumThreadsCompleted[SignalIdx] == NumThreads`. -/
  | arrive
  /-- At `ASSERT_FALSE(m_WorkerThreadSignal[1 - SignalIdx].IsTriggered())`. -/
  | assertOther
  /-- At `m_MainThreadSignal.Trigger()`. -/
  | trigger
  /-- In `while (m_NumThreadsCompleted[SignalIdx] < NumThreads) yield`. -/
  | spin
  /-- The thread function has returned. -/
  | returned
  deriving DecidableEq, Repr

/-- A worker thread: its position, its local `SignalIdx`, and the number of passes
through the creation loops it has finished (every object of a pass is dropped at the
end of its loop round, before the pass ends). -/
structure WorkerThread where
  pc : WorkerPC
  SignalIdx : Int
  passes : Nat
  deriving DecidableEq, Repr

/-- Where the main thread stands in the test body. -/
inductive MainPC
  /-- In `StartWorkerThreadsAndWait`, at `m_NumThreadsCompleted[SignalIdx] = 0`. -/
  | reset
  /-- At `m_WorkerThreadSignal[SignalIdx].Trigger(true)`. -/
  | start
  /-- At `m_MainThreadSignal.Wait(true, 1)`. -/
  | wait
  /-- At `pEnv->ReleaseResources(); SignalIdx = 1 - SignalIdx;`. -/
  | release
  /-- After the loop, at `m_WorkerThreadSignal[SignalIdx].Trigger(true, -1)`. -/
  | stop
  /-- Joining the worker threads. -/
  | join
  deriving DecidableEq, Repr

/-- State of the running test: the threads, the shared members of the fixture, the
locals of the main thread, and counters of what has happened so far (`starts`: worker
signal triggers of `StartWorkerThreadsAndWait`; `triggers`: calls of
`m_MainThreadSignal.Trigger()`; `releases`: calls of `ReleaseResources`;
`assertFailures`: failed `ASSERT_FALSE`). -/
structure TestState where
  workers : List WorkerThread
  m_NumThreadsCompleted : Int → Int
  m_WorkerThreadSignal : Int → Signal
  m_MainThreadSignal : Signal
  mainPC : MainPC
  SignalIdx : Int
  iter : Nat
  starts : Nat
  triggers : Nat
  releases : Nat
  assertFailures : Nat

/-- Write one element of an array member. -/
def store {α : Type} (a : Int → α) (i : Int) (v : α) : Int → α :=
  fun j => if j = i then v else a j

/-- `NumThreads`, that is `static_cast<int>(m_Threads.size())`. -/
def TestState.NumThreads (s : TestState) : Int :=
  (s.workers.length : Int)

/-- The state when the main thread reaches the iteration loop: all worker threads are
started and stand at their first wait with `SignalIdx = 0`, the signals are not
triggered, and the two counters, which nothing has initialized yet, hold `c0`, `c1`. -/
def initialTest (n : Nat) (c0 c1 : Int) (iterations : Nat) : TestState :=
  { workers := List.replicate n ⟨WorkerPC.waitSignal, 0, 0⟩,
    m_NumThreadsCompleted := fun j => if j = 0 then c0 else c1,
    m_WorkerThreadSignal := fun _ => ⟨0, 0⟩,
    m_MainThreadSignal := ⟨0, 0⟩,
    mainPC := if 0 < iterations then MainPC.reset else MainPC.stop,
    SignalIdx := 0,
    iter := 0, starts := 0, triggers := 0, releases := 0, assertFailures := 0 }

/-- One atomic step of worker thread `i`; `none` when the thread is blocked or has
returned. -/
def workerStep (s : TestState) (i : Nat) : Option TestState :=
  match s.workers[i]? with
  | none => none
  | some w =>
    match w.pc with
    | WorkerPC.waitSignal =>
      -- auto SignaledValue = This->m_WorkerThreadSignal[SignalIdx].Wait(true, NumThreads);
      match (s.m_WorkerThreadSignal w.SignalIdx).Wait s.NumThreads with
      | none => none
      | some (SignaledValue, sig) =>
        some { s with
          m_WorkerThreadSignal := store s.m_WorkerThreadSignal w.SignalIdx sig,
          workers := s.workers.set i
            { w with pc := if SignaledValue < 0 then WorkerPC.returned else WorkerPC.create } }
    | WorkerPC.create =>
      some { s with
        workers := s.workers.set i { w with pc := WorkerPC.arrive, passes := w.passes + 1 } }
    | WorkerPC.arrive =>
      -- if (++m_NumThreadsCompleted[SignalIdx] == NumThreads)
      let v := s.m_NumThreadsCompleted w.SignalIdx + 1
      some { s with
        m_NumThreadsCompleted := store s.m_NumThreadsCompleted w.SignalIdx v,
        workers := s.workers.set i
          { w with pc := if v = s.NumThreads then WorkerPC.assertOther else WorkerPC.spin } }
    | WorkerPC.assertOther =>
      if (s.m_WorkerThreadSignal (1 - w.SignalIdx)).IsTriggered then
        -- the fatal assertion fails and returns from WaitSiblingWorkerThreads
        some { s with
          assertFailures := s.assertFailures + 1,
          workers := s.workers.set i
            { w with pc := WorkerPC.waitSignal, SignalIdx := 1 - w.SignalIdx } }
      else
        some { s with workers := s.workers.set i { w with pc := WorkerPC.trigger } }
    | WorkerPC.trigger =>
      some { s with
        m_MainThreadSignal := s.m_MainThreadSignal.Trigger 1,
        triggers := s.triggers + 1,
        workers := s.workers.set i
          { w with pc := WorkerPC.waitSignal, SignalIdx := 1 - w.SignalIdx } }
    | WorkerPC.spin =>
      if s.m_NumThreadsCompleted w.SignalIdx < s.NumThreads then
        some s
      else
        some { s with
          workers := s.workers.set i
            { w with pc := WorkerPC.waitSignal, SignalIdx := 1 - w.SignalIdx } }
    | WorkerPC.returned => none

/-- One atomic step of the main thread in a test of `iterations` iterations; `none`
when the thread is blocked. -/
def mainStep (iterations : Nat) (s : TestState) : Option TestState :=
  match s.mainPC with
  | MainPC.reset =>
    some { s with
      m_NumThreadsCompleted := store s.m_NumThreadsCompleted s.SignalIdx 0,
      mainPC := MainPC.start }
  | MainPC.start =>
    some { s with
      m_WorkerThreadSignal := store s.m_WorkerThreadSignal s.SignalIdx
        ((s.m_WorkerThreadSignal s.SignalIdx).Trigger 1),
      starts := s.starts + 1,
      mainPC := MainPC.wait }
  | MainPC.wait =>
    match s.m_MainThreadSignal.Wait 1 with
    | none => none
    | some (_, sig) => some { s with m_MainThreadSignal := sig, mainPC := MainPC.release }
  | MainPC.release =>
    some { s with
      releases := s.releases + 1,
      SignalIdx := 1 - s.SignalIdx,
      iter := s.iter + 1,
      mainPC := if s.iter + 1 < iterations then MainPC.reset else MainPC.stop }
  | MainPC.stop =>
    some { s with
      m_WorkerThreadSignal := store s.m_WorkerThreadSignal s.SignalIdx
        ((s.m_WorkerThreadSignal s.SignalIdx).Trigger (-1)),
      mainPC := MainPC.join }
  | MainPC.join => none

/-- One scheduling decision: `none` runs the main thread, `some i` runs worker `i`. A
thread that is blocked leaves the state as it is. -/
def testStep (iterations : Nat) (s : TestState) (thread : Option Nat) : TestState :=
  match thread with
  | none => (mainStep iterations s).getD s
  | some i => (workerStep s i).getD s

/-- Run the test under a schedule, an arbitrary interleaving of the threads. -/
def runTest (iterations : Nat) (s : TestState) (schedule : List (Option Nat)) : TestState :=
  schedule.foldl (testStep iterations) s

/-- Whether a worker stands in the branch that triggers the main-thread signal. -/
def atTrigger (w : WorkerThread) : Nat :=
  match w.pc with
  | WorkerPC.assertOther => 1
  | WorkerPC.trigger => 1
  | _ => 0

/-- Whether a worker has passed the wait of the iteration that runs on index `idx`. -/
def awake (idx : Int) (w : WorkerThread) : Nat :=
  match w.pc with
  | WorkerPC.waitSignal => if w.SignalIdx = idx then 0 else 1
  | WorkerPC.create => 1
  | WorkerPC.arrive => 1
  | WorkerPC.assertOther => 1
  | WorkerPC.trigger => 1
  | WorkerPC.spin => if w.SignalIdx = idx then 1 else 0
  | WorkerPC.returned => 0

/-- Whether a worker has incremented the counter of the iteration that runs on index
`idx`. -/
def arrived (idx : Int) (w : WorkerThread) : Nat :=
  match w.pc with
  | WorkerPC.waitSignal => if w.SignalIdx = idx then 0 else 1
  | WorkerPC.create => 0
  | WorkerPC.arrive => 0
  | WorkerPC.assertOther => 1
  | WorkerPC.trigger => 1
  | WorkerPC.spin => if w.SignalIdx = idx then 1 else 0
  | WorkerPC.returned => 0

/-- Whether a worker has returned from its thread function. -/
def isReturned (w : WorkerThread) : Nat :=
  match w.pc with
  | WorkerPC.returned => 1
  | _ => 0

/-- Number of workers counted by a 0/1 measure. -/
def total (f : WorkerThread → Nat) (l : List WorkerThread) : Nat :=
  (l.map f).sum

/-- State of an auto-reset signal triggered with `value` after `woken` of `n` waiting
threads have been woken. -/
def signalOf (value : Int) (woken n : Nat) : Signal :=
  if woken = n then ⟨0, 0⟩ else ⟨value, (woken : Int)⟩

/-- A worker as it can be while the main thread is between two iterations, `iter`
iterations done, the next one to run on index `idx`: waiting for the next start, or
still leaving the spin loop of the previous iteration. -/
def okIdle (idx : Int) (iter : Nat) (w : WorkerThread) : Prop :=
  w.passes = iter ∧
  match w.pc with
  | WorkerPC.waitSignal => w.SignalIdx = idx
  | WorkerPC.spin => w.SignalIdx = 1 - idx
  | _ => False

/-- A worker as it can be while the main thread waits for iteration `iter` (counted
from 0) on index `idx`. -/
def okWait (idx : Int) (iter : Nat) (w : WorkerThread) : Prop :=
  match w.pc with
  | WorkerPC.waitSignal =>
    (w.SignalIdx = idx ∧ w.passes = iter) ∨ (w.SignalIdx = 1 - idx ∧ w.passes = iter + 1)
  | WorkerPC.create => w.SignalIdx = idx ∧ w.passes = iter
  | WorkerPC.arrive => w.SignalIdx = idx ∧ w.passes = iter + 1
  | WorkerPC.assertOther => w.SignalIdx = idx ∧ w.passes = iter + 1
  | WorkerPC.trigger => w.SignalIdx = idx ∧ w.passes = iter + 1
  | WorkerPC.spin =>
    (w.SignalIdx = 1 - idx ∧ w.passes = iter) ∨ (w.SignalIdx = idx ∧ w.passes = iter + 1)
  | WorkerPC.returned => False

/-- A worker as it can be while the main thread releases the resources of iteration
`iter` run on index `idx`. -/
def okRelease (idx : Int) (iter : Nat) (w : WorkerThread) : Prop :=
  w.passes = iter + 1 ∧
  match w.pc with
  | WorkerPC.waitSignal => w.SignalIdx = 1 - idx
  | WorkerPC.spin => w.SignalIdx = idx
  | _ => False

/-- A worker as it can be after the main thread has sent the final signal on index
`idx`. -/
def okJoin (idx : Int) (iter : Nat) (w : WorkerThread) : Prop :=
  w.passes = iter ∧
  match w.pc with
  | WorkerPC.waitSignal => w.SignalIdx = idx
  | WorkerPC.spin => w.SignalIdx = 1 - idx
  | WorkerPC.returned => True
  | _ => False

/-- The main thread is between two iterations. -/
def Idle (s : TestState) : Prop :=
  s.m_WorkerThreadSignal s.SignalIdx = ⟨0, 0⟩
    ∧ s.m_MainThreadSignal = ⟨0, 0⟩
    ∧ s.triggers = s.iter
    ∧ s.starts = s.iter
    ∧ ∀ w ∈ s.workers, okIdle s.SignalIdx s.iter w

/-- The main thread has started an iteration and waits for the main-thread signal. -/
def Waiting (s : TestState) : Prop :=
  s.starts = s.iter + 1
    ∧ (∀ w ∈ s.workers, okWait s.SignalIdx s.iter w)
    ∧ s.m_WorkerThreadSignal s.SignalIdx
        = signalOf 1 (total (awake s.SignalIdx) s.workers) s.workers.length
    ∧ s.m_NumThreadsCompleted s.SignalIdx = (total (arrived s.SignalIdx) s.workers : Int)
    ∧ (s.triggers = s.iter ∨ s.triggers = s.iter + 1)
    ∧ s.m_MainThreadSignal = (if s.triggers = s.iter then ⟨0, 0⟩ else ⟨1, 0⟩)
    ∧ total atTrigger s.workers + (s.triggers - s.iter)
        = (if total (arrived s.SignalIdx) s.workers = s.workers.length then 1 else 0)

/-- The main thread has been woken and is about to release the resources. -/
def Releasing (s : TestState) : Prop :=
  s.starts = s.iter + 1
    ∧ s.triggers = s.iter + 1
    ∧ s.m_WorkerThreadSignal s.SignalIdx = ⟨0, 0⟩
    ∧ s.m_MainThreadSignal = ⟨0, 0⟩
    ∧ s.m_NumThreadsCompleted s.SignalIdx = s.NumThreads
    ∧ ∀ w ∈ s.workers, okRelease s.SignalIdx s.iter w

/-- The main thread has sent the final signal and joins the workers. -/
def Joining (s : TestState) : Prop :=
  s.triggers = s.iter
    ∧ s.starts = s.iter
    ∧ s.m_MainThreadSignal = ⟨0, 0⟩
    ∧ s.m_WorkerThreadSignal s.SignalIdx
        = signalOf (-1) (total isReturned s.workers) s.workers.length
    ∧ ∀ w ∈ s.workers, okJoin s.SignalIdx s.iter w

/-- The invariant of the running test. -/
structure Inv (s : TestState) : Prop where
  pos : 0 < s.workers.length
  rel : s.releases = s.iter
  noFail : s.assertFailures = 0
  other : s.m_WorkerThreadSignal (1 - s.SignalIdx) = ⟨0, 0⟩
  lag : ∀ w ∈ s.workers, w.pc = WorkerPC.spin → w.SignalIdx = 1 - s.SignalIdx →
    s.m_NumThreadsCompleted (1 - s.SignalIdx) = s.NumThreads
  phase :
    match s.mainPC with
    | MainPC.reset => Idle s
    | MainPC.start => Idle s ∧ s.m_NumThreadsCompleted s.SignalIdx = 0
    | MainPC.wait => Waiting s
    | MainPC.release => Releasing s
    | MainPC.stop => Idle s
    | MainPC.join => Joining s

/-- The state of the test body of `CreateResources` on a host with `numCores` cores,
built with or without `_DEBUG`, with counters initially holding `c0` and `c1`, after an
arbitrary interleaving `schedule` of its threads. -/
def testRun (numCores : Nat) (debug : Bool) (c0 c1 : Int) (schedule : List (Option Nat)) :
    TestState :=
  runTest (NumIterations debug)
    (initialTest (numThreads numCores) c0 c1 (NumIterations debug)) schedule

/-- The schedule that lets the main thread and four workers take one step each, in
turn, `rounds` times. -/
def roundRobin4 : Nat → List (Option Nat)
  | 0 => []
  | rounds + 1 => [none, some 0, some 1, some 2, some 3] ++ roundRobin4 rounds

/-! ## Lemmas on `GetStatus` -/

/-- With no compile task attached, `GetStatus` only reads the bytecode pointer. -/
theorem GetStatus_of_no_task {World Blob Task : Type} (I : IAsyncTask World Task)
    (s : ShaderD3DBase Blob Task) (w : World) (wait : Bool) (h : s.m_pCompileTask = none) :
    s.GetStatus I w wait
      = { ret := statusOfByteCode s.m_pShaderByteCode, self := s, world := w, calls := [] } := by
  unfold ShaderD3DBase.GetStatus
  rw [h]

/-- The branch of `GetStatus` taken when the attached task reports a status that is at
most `ASYNC_TASK_STATUS_RUNNING`. -/
theorem GetStatus_of_running {World Blob Task : Type} (I : IAsyncTask World Task)
    (s : ShaderD3DBase Blob Task) (w : World) (wait : Bool) (t : Task)
    (h : s.m_pCompileTask = some t)
    (hs : I.GetStatus t (if wait then I.WaitForCompletion t w else w)
      ≤ I.ASYNC_TASK_STATUS_RUNNING) :
    s.GetStatus I w wait
      = { ret := SHADER_STATUS.SHADER_STATUS_COMPILING, self := s,
          world := if wait then I.WaitForCompletion t w else w,
          calls := (if wait then [TaskCall.WaitForCompletion t] else [])
            ++ [TaskCall.GetStatus t] } := by
  unfold ShaderD3DBase.GetStatus
  rw [h]
  simp only [hs, if_true]

/-- The branch of `GetStatus` taken when the attached task reports a status above
`ASYNC_TASK_STATUS_RUNNING`. -/
theorem GetStatus_of_finished {World Blob Task : Type} (I : IAsyncTask World Task)
    (s : ShaderD3DBase Blob Task) (w : World) (wait : Bool) (t : Task)
    (h : s.m_pCompileTask = some t)
    (hs : I.ASYNC_TASK_STATUS_RUNNING
      < I.GetStatus t (if wait then I.WaitForCompletion t w else w)) :
    s.GetStatus I w wait
      = { ret := statusOfByteCode s.m_pShaderByteCode,
          self := { s with m_pCompileTask := none },
          world := I.Release t (if wait then I.WaitForCompletion t w else w),
          calls := (if wait then [TaskCall.WaitForCompletion t] else [])
            ++ [TaskCall.GetStatus t, TaskCall.Release t] } := by
  unfold ShaderD3DBase.GetStatus
  rw [h]
  simp only [Nat.not_le.mpr hs, if_false]

/-- The final statement of `GetStatus` never yields `SHADER_STATUS_COMPILING`. -/
theorem statusOfByteCode_ne_compiling {Blob : Type} (b : Option Blob) :
    statusOfByteCode b ≠ SHADER_STATUS.SHADER_STATUS_COMPILING := by
  unfold statusOfByteCode
  split <;> simp

/-- The bytecode member is never written by `GetStatus`. -/
theorem GetStatus_bytecode {World Blob Task : Type} (I : IAsyncTask World Task)
    (s : ShaderD3DBase Blob Task) (w : World) (wait : Bool) :
    (s.GetStatus I w wait).self.m_pShaderByteCode = s.m_pShaderByteCode := by
  cases h : s.m_pCompileTask with
  | none => rw [GetStatus_of_no_task I s w wait h]
  | some t =>
    by_cases hs : I.GetStatus t (if wait then I.WaitForCompletion t w else w)
        ≤ I.ASYNC_TASK_STATUS_RUNNING
    · rw [GetStatus_of_running I s w wait t h hs]
    · rw [GetStatus_of_finished I s w wait t h (Nat.not_le.mp hs)]

/-- A call that does not answer `SHADER_STATUS_COMPILING` leaves the task pointer null
and answers from the bytecode pointer. -/
theorem GetStatus_terminal {World Blob Task : Type} (I : IAsyncTask World Task)
    (s : ShaderD3DBase Blob Task) (w : World) (wait : Bool)
    (hr : (s.GetStatus I w wait).ret ≠ SHADER_STATUS.SHADER_STATUS_COMPILING) :
    (s.GetStatus I w wait).self.m_pCompileTask = none
      ∧ (s.GetStatus I w wait).ret = statusOfByteCode s.m_pShaderByteCode := by
  cases h : s.m_pCompileTask with
  | none =>
    rw [GetStatus_of_no_task I s w wait h]
    exact ⟨h, rfl⟩
  | some t =>
    by_cases hs : I.GetStatus t (if wait then I.WaitForCompletion t w else w)
        ≤ I.ASYNC_TASK_STATUS_RUNNING
    · rw [GetStatus_of_running I s w wait t h hs] at hr
      exact absurd rfl hr
    · rw [GetStatus_of_finished I s w wait t h (Nat.not_le.mp hs)]
      exact ⟨rfl, rfl⟩

/-- The task pointer is still set after a call exactly when it was set before and the
call answered `SHADER_STATUS_COMPILING`. -/
theorem GetStatus_task_isSome_iff {World Blob Task : Type} (I : IAsyncTask World Task)
    (s : ShaderD3DBase Blob Task) (w : World) (wait : Bool) :
    (s.GetStatus I w wait).self.m_pCompileTask.isSome = true
      ↔ (s.m_pCompileTask.isSome = true
          ∧ (s.GetStatus I w wait).ret = SHADER_STATUS.SHADER_STATUS_COMPILING) := by
  cases h : s.m_pCompileTask with
  | none =>
    rw [GetStatus_of_no_task I s w wait h]
    simp [h]
  | some t =>
    by_cases hs : I.GetStatus t (if wait then I.WaitForCompletion t w else w)
        ≤ I.ASYNC_TASK_STATUS_RUNNING
    · rw [GetStatus_of_running I s w wait t h hs]
      simp [h]
    · rw [GetStatus_of_finished I s w wait t h (Nat.not_le.mp hs)]
      simp [statusOfByteCode_ne_compiling]

/-- Once the task pointer is null, every call of a run answers from the bytecode
pointer. -/
theorem runGetStatus_of_no_task {World Blob Task : Type} (I : IAsyncTask World Task)
    (calls : List (StatusCall World)) :
    ∀ (s : ShaderD3DBase Blob Task) (w : World), s.m_pCompileTask = none →
      ∀ r ∈ runGetStatus I s w calls, r = statusOfByteCode s.m_pShaderByteCode := by
  induction calls with
  | nil =>
    intro s w _ r hr
    simp [runGetStatus] at hr
  | cons c cs ih =>
    intro s w h r hr
    simp only [runGetStatus, List.mem_cons] at hr
    rw [GetStatus_of_no_task I s (c.env w) c.WaitForCompletion h] at hr
    rcases hr with hr | hr
    · exact hr
    · exact ih s (c.env w) h r hr

/-- The task pointer is still set after a run exactly when it was set before and every
call of the run answered `SHADER_STATUS_COMPILING`. -/
theorem shaderAfter_task_isSome_iff {World Blob Task : Type} (I : IAsyncTask World Task)
    (calls : List (StatusCall World)) :
    ∀ (s : ShaderD3DBase Blob Task) (w : World),
      (shaderAfter I s w calls).m_pCompileTask.isSome = true
        ↔ (s.m_pCompileTask.isSome = true
            ∧ ∀ r ∈ runGetStatus I s w calls, r = SHADER_STATUS.SHADER_STATUS_COMPILING) := by
  induction calls with
  | nil =>
    intro s w
    simp [shaderAfter, runGetStatus]
  | cons c cs ih =>
    intro s w
    simp only [shaderAfter, runGetStatus, List.forall_mem_cons]
    rw [ih, GetStatus_task_isSome_iff]
    tauto

/-- The main loop starts as many iterations as it has rounds. -/
theorem countIterations_mainLoopFrom (n : Nat) :
    ∀ idx : Int, countIterations (mainLoopFrom idx n) = n := by
  induction n with
  | zero =>
    intro idx
    rfl
  | succ n ih =>
    intro idx
    have h := ih (1 - idx)
    unfold countIterations at h ⊢
    simp [mainLoopFrom, h]

/-! ## Shader readiness state machine -/

/-- C1 (task terminal monotonicity): in every run of `GetStatus` calls, with any flags
and any activity of the worker threads in between, once a call has returned a value `r`
other than `SHADER_STATUS_COMPILING`, every later call returns `r` as well. -/
theorem getStatus_terminal_monotone {World Blob Task : Type} (I : IAsyncTask World Task)
    (calls : List (StatusCall World)) :
    ∀ (s : ShaderD3DBase Blob Task) (w : World) (i j : Nat) (r r' : SHADER_STATUS),
      i < j →
      (runGetStatus I s w calls)[i]? = some r →
      r ≠ SHADER_STATUS.SHADER_STATUS_COMPILING →
      (runGetStatus I s w calls)[j]? = some r' →
      r' = r := by
  induction calls with
  | nil =>
    intro s w i j r r' _ hi
    simp [runGetStatus] at hi
  | cons c cs ih =>
    intro s w i j r r' hij hi hr hj
    cases j with
    | zero => exact absurd hij (Nat.not_lt_zero i)
    | succ j =>
      simp only [runGetStatus, List.getElem?_cons_succ] at hj
      cases i with
      | zero =>
        simp only [runGetStatus, List.getElem?_cons_zero, Option.some.injEq] at hi
        rw [← hi] at hr
        have ht := GetStatus_terminal I s (c.env w) c.WaitForCompletion hr
        have hb := GetStatus_bytecode I s (c.env w) c.WaitForCompletion
        have hmem := List.getElem?_mem hj
        have h := runGetStatus_of_no_task I cs _ _ ht.1 r' hmem
        rw [h, hb, ← hi, ht.2]
      | succ i =>
        simp only [runGetStatus, List.getElem?_cons_succ] at hi
        exact ih _ _ i j r r' (Nat.lt_of_succ_lt_succ hij) hi hr hj

/-- Witness for C1: a task that is running at the first poll and finished by the second;
the third call, after more worker activity, repeats the second answer. -/
theorem getStatus_terminal_monotone_witness :
    (1 < 2)
      ∧ (runGetStatus demoTask (⟨some (16, 8), some ()⟩ : ShaderD3DBase (Nat × Nat) Unit) 1
          [⟨id, false⟩, ⟨fun _ => 4, false⟩, ⟨fun _ => 0, true⟩])[1]?
          = some SHADER_STATUS.SHADER_STATUS_READY
      ∧ SHADER_STATUS.SHADER_STATUS_READY ≠ SHADER_STATUS.SHADER_STATUS_COMPILING
      ∧ (runGetStatus demoTask (⟨some (16, 8), some ()⟩ : ShaderD3DBase (Nat × Nat) Unit) 1
          [⟨id, false⟩, ⟨fun _ => 4, false⟩, ⟨fun _ => 0, true⟩])[2]?
          = some SHADER_STATUS.SHADER_STATUS_READY
      ∧ SHADER_STATUS.SHADER_STATUS_READY = SHADER_STATUS.SHADER_STATUS_READY :=
  ⟨by decide, by decide, by decide, by decide,
    getStatus_terminal_monotone demoTask
      [⟨id, false⟩, ⟨fun _ => 4, false⟩, ⟨fun _ => 0, true⟩]
      (⟨some (16, 8), some ()⟩ : ShaderD3DBase (Nat × Nat) Unit) 1 1 2
      SHADER_STATUS.SHADER_STATUS_READY SHADER_STATUS.SHADER_STATUS_READY
      (by decide) (by decide) (by decide) (by decide)⟩

/-- C2: when a compile task is attached and its status is at most
`ASYNC_TASK_STATUS_RUNNING`, `GetStatus(false)` returns `SHADER_STATUS_COMPILING`, the
only call it makes on the task is the status read (no wait, no release), and the shader
(task handle and bytecode) and the world of tasks are unchanged. -/
theorem getStatus_nowait_compiling {World Blob Task : Type} (I : IAsyncTask World Task)
    (s : ShaderD3DBase Blob Task) (w : World) (t : Task)
    (ht : s.m_pCompileTask = some t)
    (hs : I.GetStatus t w ≤ I.ASYNC_TASK_STATUS_RUNNING) :
    (s.GetStatus I w false).ret = SHADER_STATUS.SHADER_STATUS_COMPILING
      ∧ (s.GetStatus I w false).calls = [TaskCall.GetStatus t]
      ∧ TaskCall.WaitForCompletion t ∉ (s.GetStatus I w false).calls
      ∧ (s.GetStatus I w false).self = s
      ∧ (s.GetStatus I w false).self.m_pCompileTask = some t
      ∧ (s.GetStatus I w false).self.m_pShaderByteCode = s.m_pShaderByteCode
      ∧ (s.GetStatus I w false).world = w := by
  have h := GetStatus_of_running I s w false t ht (by simpa using hs)
  rw [h]
  simp [ht]

/-- Witness for C2: a shader whose task is running (status `2`). -/
theorem getStatus_nowait_compiling_witness :
    (⟨none, some ()⟩ : ShaderD3DBase (Nat × Nat) Unit).m_pCompileTask = some ()
      ∧ demoTask.GetStatus () 2 ≤ demoTask.ASYNC_TASK_STATUS_RUNNING
      ∧ ((⟨none, some ()⟩ : ShaderD3DBase (Nat × Nat) Unit).GetStatus demoTask 2 false).ret
          = SHADER_STATUS.SHADER_STATUS_COMPILING :=
  ⟨rfl, by decide,
    (getStatus_nowait_compiling demoTask (⟨none, some ()⟩ : ShaderD3DBase (Nat × Nat) Unit)
      2 () rfl (by decide)).1⟩

/-- C3: `GetStatus(true)` on a shader with a task attached first calls
`WaitForCompletion` on the task and reads the status afterwards, in the world the wait
left; when the wait returns only with the status above `ASYNC_TASK_STATUS_RUNNING`, the
call returns `SHADER_STATUS_READY` or `SHADER_STATUS_FAILED`, never
`SHADER_STATUS_COMPILING`, whether or not a task is attached. -/
theorem getStatus_wait_terminal {World Blob Task : Type} (I : IAsyncTask World Task)
    (s : ShaderD3DBase Blob Task) (w : World)
    (hwait : ∀ t, s.m_pCompileTask = some t →
      I.ASYNC_TASK_STATUS_RUNNING < I.GetStatus t (I.WaitForCompletion t w)) :
    (∀ t, s.m_pCompileTask = some t →
        (s.GetStatus I w true).calls
          = [TaskCall.WaitForCompletion t, TaskCall.GetStatus t, TaskCall.Release t])
      ∧ (s.GetStatus I w true).ret ≠ SHADER_STATUS.SHADER_STATUS_COMPILING
      ∧ ((s.GetStatus I w true).ret = SHADER_STATUS.SHADER_STATUS_READY
          ∨ (s.GetStatus I w true).ret = SHADER_STATUS.SHADER_STATUS_FAILED) := by
  cases h : s.m_pCompileTask with
  | none =>
    rw [GetStatus_of_no_task I s w true h]
    refine ⟨fun t ht => by simp at ht, statusOfByteCode_ne_compiling _, ?_⟩
    simp only [statusOfByteCode]
    split <;> simp
  | some t =>
    have hfin := GetStatus_of_finished I s w true t h (by simpa using hwait t h)
    rw [hfin]
    refine ⟨fun t' ht' => ?_, statusOfByteCode_ne_compiling _, ?_⟩
    · cases ht'
      simp
    · simp only [statusOfByteCode]
      split <;> simp

/-- Witness for C3: a shader whose task has not started (status `1`); the wait brings
the status to `4`. -/
theorem getStatus_wait_terminal_witness :
    demoTask.ASYNC_TASK_STATUS_RUNNING
        < demoTask.GetStatus () (demoTask.WaitForCompletion () 1)
      ∧ ((⟨none, some ()⟩ : ShaderD3DBase (Nat × Nat) Unit).GetStatus demoTask 1 true).ret
          ≠ SHADER_STATUS.SHADER_STATUS_COMPILING :=
  ⟨by decide,
    (getStatus_wait_terminal demoTask (⟨none, some ()⟩ : ShaderD3DBase (Nat × Nat) Unit) 1
      (fun t _ => by cases t; decide)).2.1⟩

/-- C4: whenever `GetStatus` does not return `SHADER_STATUS_COMPILING`, which is the case
exactly when no task is attached or the attached task reports a status above
`ASYNC_TASK_STATUS_RUNNING` at the read, it returns `SHADER_STATUS_READY` if and only if
the bytecode pointer is set and `SHADER_STATUS_FAILED` if and only if it is null. -/
theorem getStatus_ready_iff_bytecode {World Blob Task : Type} (I : IAsyncTask World Task)
    (s : ShaderD3DBase Blob Task) (w : World) (wait : Bool)
    (h : (s.GetStatus I w wait).ret ≠ SHADER_STATUS.SHADER_STATUS_COMPILING) :
    ((s.GetStatus I w wait).ret = SHADER_STATUS.SHADER_STATUS_READY
        ↔ s.m_pShaderByteCode.isSome = true)
      ∧ ((s.GetStatus I w wait).ret = SHADER_STATUS.SHADER_STATUS_FAILED
        ↔ s.m_pShaderByteCode = none)
      ∧ (s.m_pCompileTask = none
        ∨ ∃ t, s.m_pCompileTask = some t
            ∧ I.ASYNC_TASK_STATUS_RUNNING
              < I.GetStatus t (if wait then I.WaitForCompletion t w else w)) := by
  have ht := (GetStatus_terminal I s w wait h).2
  refine ⟨?_, ?_, ?_⟩
  · rw [ht]
    unfold statusOfByteCode
    split <;> simp_all
  · rw [ht]
    unfold statusOfByteCode
    cases hb : s.m_pShaderByteCode <;> simp
  · cases hc : s.m_pCompileTask with
    | none => exact Or.inl rfl
    | some t =>
      refine Or.inr ⟨t, rfl, ?_⟩
      by_contra hs
      rw [GetStatus_of_running I s w wait t hc (Nat.not_lt.mp hs)] at h
      exact h rfl

/-- Witness for C4: a compilation that has terminated (status `4`) without producing
bytecode is reported as failed. -/
theorem getStatus_ready_iff_bytecode_witness :
    ((⟨none, some ()⟩ : ShaderD3DBase (Nat × Nat) Unit).GetStatus demoTask 4 false).ret
        ≠ SHADER_STATUS.SHADER_STATUS_COMPILING
      ∧ (((⟨none, some ()⟩ : ShaderD3DBase (Nat × Nat) Unit).GetStatus demoTask 4 false).ret
          = SHADER_STATUS.SHADER_STATUS_FAILED
        ↔ (⟨none, some ()⟩ : ShaderD3DBase (Nat × Nat) Unit).m_pShaderByteCode = none) :=
  ⟨by decide,
    (getStatus_ready_iff_bytecode demoTask
      (⟨none, some ()⟩ : ShaderD3DBase (Nat × Nat) Unit) 4 false (by decide)).2.1⟩

/-- C5: `GetStatus` never writes the bytecode pointer. With a task attached, a call that
reads a status above `ASYNC_TASK_STATUS_RUNNING` releases the task and leaves the task
pointer null, and a call that reads a status at most `ASYNC_TASK_STATUS_RUNNING` keeps
the task pointer and releases nothing. With no task attached the call changes neither
the shader nor the world and makes no call on any task. -/
theorem getStatus_task_handle_frame {World Blob Task : Type} (I : IAsyncTask World Task)
    (s : ShaderD3DBase Blob Task) (w : World) (wait : Bool) :
    (s.GetStatus I w wait).self.m_pShaderByteCode = s.m_pShaderByteCode
      ∧ (∀ t, s.m_pCompileTask = some t →
          I.ASYNC_TASK_STATUS_RUNNING
            < I.GetStatus t (if wait then I.WaitForCompletion t w else w) →
          (s.GetStatus I w wait).self.m_pCompileTask = none
            ∧ TaskCall.Release t ∈ (s.GetStatus I w wait).calls)
      ∧ (∀ t, s.m_pCompileTask = some t →
          I.GetStatus t (if wait then I.WaitForCompletion t w else w)
            ≤ I.ASYNC_TASK_STATUS_RUNNING →
          (s.GetStatus I w wait).self.m_pCompileTask = some t
            ∧ TaskCall.Release t ∉ (s.GetStatus I w wait).calls)
      ∧ (s.m_pCompileTask = none →
          (s.GetStatus I w wait).self = s
            ∧ (s.GetStatus I w wait).world = w
            ∧ (s.GetStatus I w wait).calls = []) := by
  refine ⟨GetStatus_bytecode I s w wait, ?_, ?_, ?_⟩
  · intro t ht hs
    rw [GetStatus_of_finished I s w wait t ht hs]
    simp
  · intro t ht hs
    rw [GetStatus_of_running I s w wait t ht hs]
    refine ⟨ht, ?_⟩
    cases wait <;> simp
  · intro hn
    rw [GetStatus_of_no_task I s w wait hn]
    exact ⟨rfl, rfl, rfl⟩

/-- Witness for C5: the task of a shader with bytecode has completed (status `4`); the
call drops the task pointer and keeps the bytecode. -/
theorem getStatus_task_handle_frame_witness :
    ((⟨some (16, 8), some ()⟩ : ShaderD3DBase (Nat × Nat) Unit).GetStatus demoTask 4
        false).self.m_pShaderByteCode = some (16, 8)
      ∧ ((⟨some (16, 8), some ()⟩ : ShaderD3DBase (Nat × Nat) Unit).GetStatus demoTask 4
        false).self.m_pCompileTask = none :=
  ⟨(getStatus_task_handle_frame demoTask
      (⟨some (16, 8), some ()⟩ : ShaderD3DBase (Nat × Nat) Unit) 4 false).1,
    ((getStatus_task_handle_frame demoTask
      (⟨some (16, 8), some ()⟩ : ShaderD3DBase (Nat × Nat) Unit) 4 false).2.1 ()
        rfl (by decide)).1⟩

/-! ## Reading the bytecode -/

/-- C6: for a shader with no compile task attached and bytecode blob `b`, `GetBytecode`
passes its development check, sets `*ppBytecode` to the buffer pointer of `b` and `Size`
to the buffer size of `b`, `GetD3DBytecode` passes its check and returns `b`, and
neither call modifies the shader. -/
theorem getBytecode_ready {Blob Task : Type} (B : ID3DBlob Blob)
    (s : ShaderD3DBase Blob Task) (b : Blob)
    (hb : s.m_pShaderByteCode = some b) (ht : s.m_pCompileTask = none) :
    (s.GetBytecode B).devErrors = []
      ∧ (s.GetBytecode B).ppBytecode = B.GetBufferPointer b
      ∧ (s.GetBytecode B).Size = B.GetBufferSize b
      ∧ (s.GetBytecode B).self = s
      ∧ s.GetD3DBytecode.devErrors = []
      ∧ s.GetD3DBytecode.ret = some b
      ∧ s.GetD3DBytecode.self = s := by
  unfold ShaderD3DBase.GetBytecode ShaderD3DBase.GetD3DBytecode devCheckNoCompileTask
  rw [hb, ht]
  simp

/-- Witness for C6: a ready shader whose blob is at address `16` and has `8` bytes. -/
theorem getBytecode_ready_witness :
    (⟨some (16, 8), none⟩ : ShaderD3DBase (Nat × Nat) Unit).m_pShaderByteCode = some (16, 8)
      ∧ (⟨some (16, 8), none⟩ : ShaderD3DBase (Nat × Nat) Unit).m_pCompileTask = none
      ∧ ((⟨some (16, 8), none⟩ : ShaderD3DBase (Nat × Nat) Unit).GetBytecode
          demoBlob).ppBytecode = 16
      ∧ ((⟨some (16, 8), none⟩ : ShaderD3DBase (Nat × Nat) Unit).GetBytecode
          demoBlob).Size = 8 :=
  ⟨rfl, rfl,
    (getBytecode_ready demoBlob (⟨some (16, 8), none⟩ : ShaderD3DBase (Nat × Nat) Unit)
      (16, 8) rfl rfl).2.1,
    (getBytecode_ready demoBlob (⟨some (16, 8), none⟩ : ShaderD3DBase (Nat × Nat) Unit)
      (16, 8) rfl rfl).2.2.1⟩

/-- Counterexample to C7 as worded: on the failed shader (no task, no bytecode), which
`GetStatus` reports as `SHADER_STATUS_FAILED`, `GetBytecode` does not fail: it reports
no error at all and completes with `*ppBytecode = nullptr` and `Size = 0`. -/
theorem getBytecode_failed_counterexample :
    ((⟨none, none⟩ : ShaderD3DBase (Nat × Nat) Unit).GetStatus demoTask 4 false).ret
        = SHADER_STATUS.SHADER_STATUS_FAILED
      ∧ ¬ QueryFails ((⟨none, none⟩ : ShaderD3DBase (Nat × Nat) Unit).GetBytecode demoBlob)
      ∧ ((⟨none, none⟩ : ShaderD3DBase (Nat × Nat) Unit).GetBytecode demoBlob).devErrors = []
      ∧ ((⟨none, none⟩ : ShaderD3DBase (Nat × Nat) Unit).GetBytecode demoBlob).ppBytecode = 0
      ∧ ((⟨none, none⟩ : ShaderD3DBase (Nat × Nat) Unit).GetBytecode demoBlob).Size = 0 := by
  refine ⟨by decide, ?_, by decide, by decide, by decide⟩
  intro h
  exact h (by decide)

/-- C7 (amended): for a shader with no compile task attached and no bytecode,
`GetStatus` returns `SHADER_STATUS_FAILED`, and `GetBytecode` reports no error and
carries no diagnostic: its development check passes, it sets `*ppBytecode` to `nullptr`
and `Size` to `0`, and it does not modify the shader. -/
theorem getBytecode_failed_null {World Blob Task : Type} (I : IAsyncTask World Task)
    (B : ID3DBlob Blob) (s : ShaderD3DBase Blob Task) (w : World) (wait : Bool)
    (hb : s.m_pShaderByteCode = none) (ht : s.m_pCompileTask = none) :
    (s.GetStatus I w wait).ret = SHADER_STATUS.SHADER_STATUS_FAILED
      ∧ ¬ QueryFails (s.GetBytecode B)
      ∧ (s.GetBytecode B).devErrors = []
      ∧ (s.GetBytecode B).ppBytecode = 0
      ∧ (s.GetBytecode B).Size = 0
      ∧ (s.GetBytecode B).self = s := by
  rw [GetStatus_of_no_task I s w wait ht]
  unfold QueryFails ShaderD3DBase.GetBytecode devCheckNoCompileTask statusOfByteCode
  rw [hb, ht]
  simp

/-- Witness for C7 (amended): the shader with neither task nor bytecode. -/
theorem getBytecode_failed_null_witness :
    (⟨none, none⟩ : ShaderD3DBase (Nat × Nat) Unit).m_pShaderByteCode = none
      ∧ (⟨none, none⟩ : ShaderD3DBase (Nat × Nat) Unit).m_pCompileTask = none
      ∧ ((⟨none, none⟩ : ShaderD3DBase (Nat × Nat) Unit).GetBytecode demoBlob).Size = 0 :=
  ⟨rfl, rfl,
    (getBytecode_failed_null demoTask demoBlob
      (⟨none, none⟩ : ShaderD3DBase (Nat × Nat) Unit) 0 false rfl rfl).2.2.2.2.1⟩

/-- C8: for a shader created with a compile task attached, after any run of `GetStatus`
calls: if every call so far returned `SHADER_STATUS_COMPILING` (in particular if none
was made), the development check `!m_pCompileTask` of `GetBytecode` and of
`GetD3DBytecode` is violated and reports its message; if some call returned
`SHADER_STATUS_READY` or `SHADER_STATUS_FAILED`, the check of both holds. -/
theorem bytecode_check_iff_terminal_observed {World Blob Task : Type}
    (I : IAsyncTask World Task) (B : ID3DBlob Blob) (s : ShaderD3DBase Blob Task)
    (w : World) (calls : List (StatusCall World))
    (hasync : s.m_pCompileTask.isSome = true) :
    ((∀ r ∈ runGetStatus I s w calls, r = SHADER_STATUS.SHADER_STATUS_COMPILING) →
        ((shaderAfter I s w calls).GetBytecode B).devErrors = [bytecodeNotAvailableMsg]
          ∧ (shaderAfter I s w calls).GetD3DBytecode.devErrors = [bytecodeNotAvailableMsg])
      ∧ ((∃ r ∈ runGetStatus I s w calls,
            r = SHADER_STATUS.SHADER_STATUS_READY ∨ r = SHADER_STATUS.SHADER_STATUS_FAILED) →
        ((shaderAfter I s w calls).GetBytecode B).devErrors = []
          ∧ (shaderAfter I s w calls).GetD3DBytecode.devErrors = []) := by
  have key := shaderAfter_task_isSome_iff I calls s w
  have hB : ((shaderAfter I s w calls).GetBytecode B).devErrors
      = devCheckNoCompileTask (shaderAfter I s w calls) := by
    unfold ShaderD3DBase.GetBytecode
    split <;> rfl
  have hD : (shaderAfter I s w calls).GetD3DBytecode.devErrors
      = devCheckNoCompileTask (shaderAfter I s w calls) := rfl
  rw [hB, hD]
  constructor
  · intro hall
    have hsome := key.mpr ⟨hasync, hall⟩
    have : devCheckNoCompileTask (shaderAfter I s w calls) = [bytecodeNotAvailableMsg] := by
      unfold devCheckNoCompileTask
      cases hc : (shaderAfter I s w calls).m_pCompileTask with
      | none => rw [hc] at hsome; cases hsome
      | some t => rfl
    exact ⟨this, this⟩
  · rintro ⟨r, hr, hterm⟩
    have hnone : (shaderAfter I s w calls).m_pCompileTask = none := by
      cases hc : (shaderAfter I s w calls).m_pCompileTask with
      | none => rfl
      | some t =>
        have hall := (key.mp (by rw [hc]; rfl)).2 r hr
        rcases hterm with h | h <;> rw [h] at hall <;> cases hall
    have : devCheckNoCompileTask (shaderAfter I s w calls) = [] := by
      unfold devCheckNoCompileTask
      rw [hnone]
      rfl
    exact ⟨this, this⟩

/-- Witness for C8: a shader created with a compile task; after one poll that found the
task running and a second that found it finished, the check of `GetBytecode` holds. -/
theorem bytecode_check_iff_terminal_observed_witness :
    (⟨some (16, 8), some ()⟩ : ShaderD3DBase (Nat × Nat) Unit).m_pCompileTask.isSome = true
      ∧ (∃ r ∈ runGetStatus demoTask
            (⟨some (16, 8), some ()⟩ : ShaderD3DBase (Nat × Nat) Unit) 2
            [⟨id, false⟩, ⟨fun _ => 4, false⟩],
          r = SHADER_STATUS.SHADER_STATUS_READY ∨ r = SHADER_STATUS.SHADER_STATUS_FAILED)
      ∧ ((shaderAfter demoTask (⟨some (16, 8), some ()⟩ : ShaderD3DBase (Nat × Nat) Unit) 2
          [⟨id, false⟩, ⟨fun _ => 4, false⟩]).GetBytecode demoBlob).devErrors = [] :=
  ⟨rfl, ⟨SHADER_STATUS.SHADER_STATUS_READY, by decide, Or.inl rfl⟩,
    ((bytecode_check_iff_terminal_observed demoTask demoBlob
      (⟨some (16, 8), some ()⟩ : ShaderD3DBase (Nat × Nat) Unit) 2
      [⟨id, false⟩, ⟨fun _ => 4, false⟩] rfl).2
        ⟨SHADER_STATUS.SHADER_STATUS_READY, by decide, Or.inl rfl⟩).1⟩

/-! ## Deferred release of the acceleration structure -/

/-- C9: destroying a `BottomLevelASD3D12Impl` makes exactly one call, the hand-off of its
resource pointer to `SafeReleaseDeviceObject` together with `m_Desc.CommandQueueMask`;
it makes no direct `Release` call on the native resource, and the member
`m_pd3d12Resource` is null after the destructor body. -/
theorem blas_destroy_defers_release {Resource : Type} (o : BottomLevelASD3D12Impl Resource) :
    o.destroy.calls
        = [D3D12Call.SafeReleaseDeviceObject o.m_pd3d12Resource o.m_Desc.CommandQueueMask]
      ∧ countSafeRelease o.destroy.calls = 1
      ∧ countDirectRelease o.destroy.calls = 0
      ∧ (∀ r, D3D12Call.Release r ∉ o.destroy.calls)
      ∧ o.destroy.self.m_pd3d12Resource = none
      ∧ o.destroy.self.m_Desc = o.m_Desc := by
  have h : o.destroy.calls
      = [D3D12Call.SafeReleaseDeviceObject o.m_pd3d12Resource o.m_Desc.CommandQueueMask] := by
    simp [BottomLevelASD3D12Impl.destroy, SafeReleaseDeviceObject, CComPtr.destroy]
  refine ⟨h, ?_, ?_, ?_, rfl, rfl⟩
  · rw [h]
    simp [countSafeRelease]
  · rw [h]
    simp [countDirectRelease]
  · intro r
    rw [h]
    simp

/-! ## The multithreaded creation scenario -/

/-- Counterexample to C10 as worded: even on a host with 4 cores and in a release build
the scenario is not the worded one, because a worker creates 40 buffers per iteration,
not 10; moreover a host with 8 cores runs 8 worker threads, and a `_DEBUG` build runs 10
iterations. -/
theorem creation_scenario_counterexample :
    ¬ ScenarioAsWorded 4 false
      ∧ countBuffers workerIteration = 40
      ∧ numThreads 8 = 8
      ∧ countIterations (mainLoop true) = 10 := by
  refine ⟨?_, by decide, by decide, by decide⟩
  intro h
  exact absurd h.2.1 (by decide)

/-- C10 (amended): the test runs `max(numCores, 4)` worker threads, hence at least 4, and
exactly 4 when the host reports at most 4 cores. Per iteration each worker makes
`4 * NumBuffersToCreate = 40` `CreateBuffer` calls and 20 `CreateView` calls, 5
`CreateTexture` calls and 2 `CreatePipelineState` calls, each pipeline state being
given the vertex shader and the pixel shader created just before it. The main thread
runs 100 iterations, or 10 when `_DEBUG` is defined. -/
theorem creation_scenario_counts (numCores : Nat) (debug : Bool) :
    numThreads numCores = max numCores 4
      ∧ 4 ≤ numThreads numCores
      ∧ (numThreads numCores = 4 ↔ numCores ≤ 4)
      ∧ countBuffers workerIteration = 4 * NumBuffersToCreate
      ∧ countBuffers workerIteration = 40
      ∧ countViews workerIteration = 20
      ∧ countTextures workerIteration = 5
      ∧ countPSOs workerIteration = 2
      ∧ countShaders SHADER_TYPE.SHADER_TYPE_VERTEX workerIteration = 2
      ∧ countShaders SHADER_TYPE.SHADER_TYPE_PIXEL workerIteration = 2
      ∧ forLoop NumPSOToCreate psoRound
          = [ CreateCall.CreateShader trivialVS, CreateCall.CreateShader trivialPS,
              CreateCall.CreatePipelineState trivialVS trivialPS,
              CreateCall.CreateShader trivialVS, CreateCall.CreateShader trivialPS,
              CreateCall.CreatePipelineState trivialVS trivialPS ]
      ∧ trivialVS.ShaderType = SHADER_TYPE.SHADER_TYPE_VERTEX
      ∧ trivialPS.ShaderType = SHADER_TYPE.SHADER_TYPE_PIXEL
      ∧ countIterations (mainLoop debug) = (if debug then 10 else 100) := by
  refine ⟨rfl, ?_, ?_, by decide, by decide, by decide, by decide, by decide, by decide,
    by decide, by decide, rfl, rfl, ?_⟩
  · unfold numThreads
    omega
  · unfold numThreads
    omega
  · unfold mainLoop
    rw [countIterations_mainLoopFrom]
    rfl

/-! ## Triangle geometries of the acceleration structure -/

/-- The running sum of the triangle loop equals the true sum as long as the true sum,
started from the counter, stays within 32 bits. -/
theorem triangleLoop_counter (l : List BLASTriangleDesc) :
    ∀ acc : Nat, acc + truePrimitiveCount l < 2 ^ 32 →
      (triangleLoop l acc).2 = acc + truePrimitiveCount l := by
  induction l with
  | nil =>
    intro acc _
    simp [triangleLoop, truePrimitiveCount]
  | cons src rest ih =>
    intro acc h
    simp only [truePrimitiveCount, List.map_cons, List.sum_cons] at h
    have hlt : acc + src.MaxPrimitiveCount < 2 ^ 32 := by omega
    simp only [triangleLoop, truePrimitiveCount, List.map_cons, List.sum_cons]
    rw [Nat.mod_eq_of_lt hlt]
    have := ih (acc + src.MaxPrimitiveCount) (by simp only [truePrimitiveCount]; omega)
    rw [this]
    simp only [truePrimitiveCount]
    omega

/-- The geometries written by the triangle loop are the rounds of the source
geometries, whatever the counter. -/
theorem triangleLoop_geometries (l : List BLASTriangleDesc) :
    ∀ acc : Nat, (triangleLoop l acc).1 = l.map triangleRound := by
  induction l with
  | nil =>
    intro acc
    rfl
  | cons src rest ih =>
    intro acc
    simp only [triangleLoop, List.map_cons]
    rw [ih]

/-- Every primitive count of a list is at most the true sum. -/
theorem le_truePrimitiveCount (l : List BLASTriangleDesc) :
    ∀ src ∈ l, src.MaxPrimitiveCount ≤ truePrimitiveCount l := by
  induction l with
  | nil =>
    intro src h
    cases h
  | cons a rest ih =>
    intro src h
    simp only [truePrimitiveCount, List.map_cons, List.sum_cons]
    rcases List.mem_cons.mp h with h | h
    · rw [h]
      omega
    · have := ih src h
      simp only [truePrimitiveCount] at this
      omega

/-- The true sum of a prefix is at most the true sum of the whole list. -/
theorem truePrimitiveCount_take_le (l : List BLASTriangleDesc) :
    ∀ k : Nat, truePrimitiveCount (l.take k) ≤ truePrimitiveCount l := by
  induction l with
  | nil =>
    intro k
    simp [truePrimitiveCount]
  | cons a rest ih =>
    intro k
    cases k with
    | zero => simp [truePrimitiveCount]
    | succ k =>
      have := ih k
      simp only [truePrimitiveCount, List.take_succ_cons, List.map_cons, List.sum_cons] at this ⊢
      omega

/-- C13: in the triangle loop of the constructor, a vertex value type among
`VT_FLOAT16`, `VT_FLOAT32`, `VT_INT16` with 2 or 3 components gets the format of the
table (`FLOAT16`: `R16G16_FLOAT`, `R16G16B16A16_FLOAT`; `FLOAT32`: `R32G32_FLOAT`,
`R32G32B32_FLOAT`; `INT16`: `R16G16_SNORM`, `R16G16B16A16_SNORM`), which is one of the
six formats listed as valid, and no `UNEXPECTED` is hit; every other pair hits an
`UNEXPECTED` and assigns no format. -/
theorem vertexFormat_table (ty : VALUE_TYPE) (n : Nat) :
    vertexFormatSwitch VALUE_TYPE.VT_FLOAT16 2
        = ⟨some DXGI_FORMAT.DXGI_FORMAT_R16G16_FLOAT, []⟩
      ∧ vertexFormatSwitch VALUE_TYPE.VT_FLOAT16 3
        = ⟨some DXGI_FORMAT.DXGI_FORMAT_R16G16B16A16_FLOAT, []⟩
      ∧ vertexFormatSwitch VALUE_TYPE.VT_FLOAT32 2
        = ⟨some DXGI_FORMAT.DXGI_FORMAT_R32G32_FLOAT, []⟩
      ∧ vertexFormatSwitch VALUE_TYPE.VT_FLOAT32 3
        = ⟨some DXGI_FORMAT.DXGI_FORMAT_R32G32B32_FLOAT, []⟩
      ∧ vertexFormatSwitch VALUE_TYPE.VT_INT16 2
        = ⟨some DXGI_FORMAT.DXGI_FORMAT_R16G16_SNORM, []⟩
      ∧ vertexFormatSwitch VALUE_TYPE.VT_INT16 3
        = ⟨some DXGI_FORMAT.DXGI_FORMAT_R16G16B16A16_SNORM, []⟩
      ∧ (((ty = VALUE_TYPE.VT_FLOAT16 ∨ ty = VALUE_TYPE.VT_FLOAT32 ∨ ty = VALUE_TYPE.VT_INT16)
            ∧ (n = 2 ∨ n = 3)) →
          (vertexFormatSwitch ty n).unexpected = []
            ∧ ∃ f ∈ validVertexFormats, (vertexFormatSwitch ty n).VertexFormat = some f)
      ∧ (¬ ((ty = VALUE_TYPE.VT_FLOAT16 ∨ ty = VALUE_TYPE.VT_FLOAT32 ∨ ty = VALUE_TYPE.VT_INT16)
            ∧ (n = 2 ∨ n = 3)) →
          (vertexFormatSwitch ty n).VertexFormat = none
            ∧ (vertexFormatSwitch ty n).unexpected ≠ [])
      ∧ (∀ src : BLASTriangleDesc, (triangleRound src).VertexFormat
          = (vertexFormatSwitch src.VertexValueType src.VertexComponentCount).VertexFormat) := by
  refine ⟨rfl, rfl, rfl, rfl, rfl, rfl, ?_, ?_, fun _ => rfl⟩
  · rintro ⟨hty, hn⟩
    rcases hty with h | h | h <;> rcases hn with h' | h' <;> subst h <;> subst h' <;>
      exact ⟨rfl, _, by decide, rfl⟩
  · intro hnot
    cases ty with
    | VT_UNDEFINED => exact ⟨rfl, by simp [vertexFormatSwitch]⟩
    | other code => exact ⟨rfl, by simp [vertexFormatSwitch]⟩
    | VT_INT16 =>
      have h2 : n ≠ 2 := fun h => hnot ⟨Or.inr (Or.inr rfl), Or.inl h⟩
      have h3 : n ≠ 3 := fun h => hnot ⟨Or.inr (Or.inr rfl), Or.inr h⟩
      match n, h2, h3 with
      | 0, _, _ => exact ⟨rfl, by simp [vertexFormatSwitch]⟩
      | 1, _, _ => exact ⟨rfl, by simp [vertexFormatSwitch]⟩
      | 2, h2, _ => exact absurd rfl h2
      | 3, _, h3 => exact absurd rfl h3
      | k + 4, _, _ => exact ⟨rfl, by simp [vertexFormatSwitch]⟩
    | VT_FLOAT16 =>
      have h2 : n ≠ 2 := fun h => hnot ⟨Or.inl rfl, Or.inl h⟩
      have h3 : n ≠ 3 := fun h => hnot ⟨Or.inl rfl, Or.inr h⟩
      match n, h2, h3 with
      | 0, _, _ => exact ⟨rfl, by simp [vertexFormatSwitch]⟩
      | 1, _, _ => exact ⟨rfl, by simp [vertexFormatSwitch]⟩
      | 2, h2, _ => exact absurd rfl h2
      | 3, _, h3 => exact absurd rfl h3
      | k + 4, _, _ => exact ⟨rfl, by simp [vertexFormatSwitch]⟩
    | VT_FLOAT32 =>
      have h2 : n ≠ 2 := fun h => hnot ⟨Or.inr (Or.inl rfl), Or.inl h⟩
      have h3 : n ≠ 3 := fun h => hnot ⟨Or.inr (Or.inl rfl), Or.inr h⟩
      match n, h2, h3 with
      | 0, _, _ => exact ⟨rfl, by simp [vertexFormatSwitch]⟩
      | 1, _, _ => exact ⟨rfl, by simp [vertexFormatSwitch]⟩
      | 2, h2, _ => exact absurd rfl h2
      | 3, _, h3 => exact absurd rfl h3
      | k + 4, _, _ => exact ⟨rfl, by simp [vertexFormatSwitch]⟩

/-- Witness for C13: a 16-bit float geometry with 3 components gets the 4-component
workaround format, and one with 4 components gets none. -/
theorem vertexFormat_table_witness :
    (vertexFormatSwitch VALUE_TYPE.VT_FLOAT16 3).VertexFormat
        = some DXGI_FORMAT.DXGI_FORMAT_R16G16B16A16_FLOAT
      ∧ (vertexFormatSwitch VALUE_TYPE.VT_FLOAT16 4).VertexFormat = none :=
  ⟨congrArg VertexFormatResult.VertexFormat (vertexFormat_table VALUE_TYPE.VT_FLOAT16 4).2.1,
    ((vertexFormat_table VALUE_TYPE.VT_FLOAT16 4).2.2.2.2.2.2.2.1 (by decide)).1⟩

/-- C17: every geometry written by the triangle branch has `IndexCount` `0` when its
`IndexType` is `VT_UNDEFINED` and `MaxPrimitiveCount * 3` modulo `2 ^ 32` otherwise.
When the true sum of all `MaxPrimitiveCount` values is at most
`D3D12_RAYTRACING_MAX_PRIMITIVES_PER_BOTTOM_LEVEL_ACCELERATION_STRUCTURE = 2 ^ 29`, the
32-bit running sum equals the true sum after every number of rounds, the asserted
expression holds, no `MaxPrimitiveCount * 3` wraps, and `IndexCount` is exactly three
times the primitive count for every indexed geometry. -/
theorem indexCount_exact (pTriangles : List BLASTriangleDesc) :
    (triangleBranch pTriangles).d3d12Geometries = pTriangles.map triangleRound
      ∧ (∀ src : BLASTriangleDesc,
          (src.IndexType = VALUE_TYPE.VT_UNDEFINED → (triangleRound src).IndexCount = 0)
            ∧ (src.IndexType ≠ VALUE_TYPE.VT_UNDEFINED →
                (triangleRound src).IndexCount = (src.MaxPrimitiveCount * 3) % 2 ^ 32))
      ∧ D3D12_RAYTRACING_MAX_PRIMITIVES_PER_BOTTOM_LEVEL_ACCELERATION_STRUCTURE = 2 ^ 29
      ∧ (truePrimitiveCount pTriangles
            ≤ D3D12_RAYTRACING_MAX_PRIMITIVES_PER_BOTTOM_LEVEL_ACCELERATION_STRUCTURE →
          (∀ k : Nat, (triangleLoop (pTriangles.take k) 0).2
              = truePrimitiveCount (pTriangles.take k))
            ∧ (triangleBranch pTriangles).MaxPrimitiveCount = truePrimitiveCount pTriangles
            ∧ (triangleBranch pTriangles).verifyExpr = true
            ∧ ∀ src ∈ pTriangles,
                src.MaxPrimitiveCount * 3 < 2 ^ 32
                  ∧ (src.IndexType ≠ VALUE_TYPE.VT_UNDEFINED →
                      (triangleRound src).IndexCount = 3 * src.MaxPrimitiveCount)) := by
  refine ⟨triangleLoop_geometries pTriangles 0, ?_, by decide, ?_⟩
  · intro src
    constructor
    · intro h
      simp [triangleRound, h]
    · intro h
      simp [triangleRound, h]
  · intro hsum
    have hmax : D3D12_RAYTRACING_MAX_PRIMITIVES_PER_BOTTOM_LEVEL_ACCELERATION_STRUCTURE
        = 536870912 := rfl
    rw [hmax] at hsum
    have hfinal : (triangleLoop pTriangles 0).2 = truePrimitiveCount pTriangles := by
      have := triangleLoop_counter pTriangles 0 (by omega)
      omega
    refine ⟨?_, hfinal, ?_, ?_⟩
    · intro k
      have hk := truePrimitiveCount_take_le pTriangles k
      have := triangleLoop_counter (pTriangles.take k) 0 (by omega)
      omega
    · simp only [triangleBranch, hfinal, decide_eq_true_eq, hmax]
      exact hsum
    · intro src hsrc
      have hle := le_truePrimitiveCount pTriangles src hsrc
      have h3 : src.MaxPrimitiveCount * 3 < 2 ^ 32 := by omega
      refine ⟨h3, fun hidx => ?_⟩
      simp only [triangleRound, hidx, if_false]
      rw [Nat.mod_eq_of_lt h3]
      omega

/-- Witness for C17: two geometries with 5 and 7 primitives, the second without index
buffer. -/
theorem indexCount_exact_witness :
    truePrimitiveCount
        [⟨15, VALUE_TYPE.VT_FLOAT32, 3, 5, VALUE_TYPE.other 5⟩,
          ⟨21, VALUE_TYPE.VT_FLOAT32, 3, 7, VALUE_TYPE.VT_UNDEFINED⟩]
        ≤ D3D12_RAYTRACING_MAX_PRIMITIVES_PER_BOTTOM_LEVEL_ACCELERATION_STRUCTURE
      ∧ (triangleBranch
          [⟨15, VALUE_TYPE.VT_FLOAT32, 3, 5, VALUE_TYPE.other 5⟩,
            ⟨21, VALUE_TYPE.VT_FLOAT32, 3, 7, VALUE_TYPE.VT_UNDEFINED⟩]).MaxPrimitiveCount
        = truePrimitiveCount
          [⟨15, VALUE_TYPE.VT_FLOAT32, 3, 5, VALUE_TYPE.other 5⟩,
            ⟨21, VALUE_TYPE.VT_FLOAT32, 3, 7, VALUE_TYPE.VT_UNDEFINED⟩] :=
  ⟨by decide,
    ((indexCount_exact
      [⟨15, VALUE_TYPE.VT_FLOAT32, 3, 5, VALUE_TYPE.other 5⟩,
        ⟨21, VALUE_TYPE.VT_FLOAT32, 3, 7, VALUE_TYPE.VT_UNDEFINED⟩]).2.2.2 (by decide)).2.1⟩

/-- The calls of `Reset`: one invocation of the deleter on the held handle when that
handle is non-null and differs from the new one, none otherwise. -/
theorem Reset_calls (w : WebGPUObjectWrapper) (Handle : Nat) :
    (w.Reset Handle).2
      = if w.m_ObjectHandle ≠ Handle ∧ w.m_ObjectHandle ≠ 0
        then w.m_ObjectDeleter.invoke w.m_ObjectHandle else [] := by
  unfold WebGPUObjectWrapper.Reset
  by_cases h1 : w.m_ObjectHandle = Handle
  · simp [h1]
  · rw [if_pos h1]
    by_cases h2 : w.m_ObjectHandle = 0
    · simp [h2]
    · simp [h1, h2]

/-- The handle held after `Reset` is the new one. -/
theorem Reset_handle (w : WebGPUObjectWrapper) (Handle : Nat) :
    (w.Reset Handle).1.m_ObjectHandle = Handle := by
  unfold WebGPUObjectWrapper.Reset
  by_cases h1 : w.m_ObjectHandle = Handle
  · simp [h1]
  · simp [h1]

/-- The deleter is not changed by `Reset`. -/
theorem Reset_deleter (w : WebGPUObjectWrapper) (Handle : Nat) :
    (w.Reset Handle).1.m_ObjectDeleter = w.m_ObjectDeleter := by
  unfold WebGPUObjectWrapper.Reset
  by_cases h1 : w.m_ObjectHandle = Handle
  · simp [h1]
  · simp [h1]

/-- The calls of one deleter invocation. -/
theorem invoke_calls (d : WebGPUDeleter) (Handle : Nat) (c : WebGPUCall)
    (hc : c ∈ d.invoke Handle) :
    c = WebGPUCall.Deleter d Handle
      ∨ (c = WebGPUCall.NativeRelease Handle ∧ d.IsShared = false) := by
  unfold WebGPUDeleter.invoke at hc
  cases hs : d.IsShared <;> simp [hs] at hc
  · rcases hc with hc | hc
    · exact Or.inl hc
    · exact Or.inr ⟨hc, rfl⟩
  · exact Or.inl hc

/-! ## WebGPUObjectWrapper: move assignment -/

/-- C15: after `A = std::move(B)` with `A` and `B` distinct objects, `A` holds the
former handle of `B` and the deleter of `B`, `B` holds a null handle, and no other
object is touched. The former handle of `B` is passed to no deleter and to no native
release. When the former handle of `A` is non-null and differs from that of `B`, the
calls made are exactly one invocation of the former deleter of `A` on it, which
releases natively only if that deleter is not shared; otherwise no call is made. A
destination whose old deleter has `IsShared = true` causes no native release, whatever
the incoming deleter. -/
theorem moveAssign_transfers (H : WrapperHeap) (A B : Nat) (hAB : A ≠ B) :
    ((WebGPUObjectWrapper.moveAssign H A B).1 A).m_ObjectHandle = (H B).m_ObjectHandle
      ∧ ((WebGPUObjectWrapper.moveAssign H A B).1 A).m_ObjectDeleter = (H B).m_ObjectDeleter
      ∧ ((WebGPUObjectWrapper.moveAssign H A B).1 B).m_ObjectHandle = 0
      ∧ ((WebGPUObjectWrapper.moveAssign H A B).1 B).m_ObjectDeleter = (H B).m_ObjectDeleter
      ∧ (∀ p, p ≠ A → p ≠ B → (WebGPUObjectWrapper.moveAssign H A B).1 p = H p)
      ∧ (∀ d, WebGPUCall.Deleter d (H B).m_ObjectHandle
          ∉ (WebGPUObjectWrapper.moveAssign H A B).2)
      ∧ WebGPUCall.NativeRelease (H B).m_ObjectHandle
          ∉ (WebGPUObjectWrapper.moveAssign H A B).2
      ∧ ((H A).m_ObjectHandle ≠ 0 → (H A).m_ObjectHandle ≠ (H B).m_ObjectHandle →
          (WebGPUObjectWrapper.moveAssign H A B).2
              = (H A).m_ObjectDeleter.invoke (H A).m_ObjectHandle
            ∧ deletedHandles (WebGPUObjectWrapper.moveAssign H A B).2
              = [(H A).m_ObjectHandle])
      ∧ (((H A).m_ObjectHandle = 0 ∨ (H A).m_ObjectHandle = (H B).m_ObjectHandle) →
          (WebGPUObjectWrapper.moveAssign H A B).2 = [])
      ∧ ((H A).m_ObjectDeleter.IsShared = true →
          ∀ h, WebGPUCall.NativeRelease h ∉ (WebGPUObjectWrapper.moveAssign H A B).2) := by
  have hBA : B ≠ A := fun h => hAB h.symm
  have hcalls : (WebGPUObjectWrapper.moveAssign H A B).2
      = ((H A).Reset (H B).m_ObjectHandle).2 := by
    simp [WebGPUObjectWrapper.moveAssign, WrapperHeap.set, WebGPUObjectWrapper.Release, hAB]
  rw [hcalls]
  refine ⟨?_, ?_, ?_, ?_, ?_, ?_, ?_, ?_, ?_, ?_⟩
  · simp only [WebGPUObjectWrapper.moveAssign, WrapperHeap.set, WebGPUObjectWrapper.Release,
      WebGPUObjectWrapper.Reset, hAB, hBA, if_true, if_false]
    split <;> simp_all
  · simp [WebGPUObjectWrapper.moveAssign, WrapperHeap.set, WebGPUObjectWrapper.Release, hAB, hBA]
  · simp [WebGPUObjectWrapper.moveAssign, WrapperHeap.set, WebGPUObjectWrapper.Release, hAB, hBA]
  · simp [WebGPUObjectWrapper.moveAssign, WrapperHeap.set, WebGPUObjectWrapper.Release, hAB, hBA]
  · intro p hpA hpB
    simp [WebGPUObjectWrapper.moveAssign, WrapperHeap.set, hpA, hpB]
  · intro d hmem
    rw [Reset_calls] at hmem
    split at hmem
    · rename_i hc
      rcases invoke_calls _ _ _ hmem with h | h
      · injection h with _ hh
        exact hc.1 hh.symm
      · cases h.1
    · cases hmem
  · intro hmem
    rw [Reset_calls] at hmem
    split at hmem
    · rename_i hc
      rcases invoke_calls _ _ _ hmem with h | h
      · cases h
      · injection h.1 with hh
        exact hc.1 hh.symm
    · cases hmem
  · intro h0 hne
    rw [Reset_calls, if_pos ⟨hne, h0⟩]
    refine ⟨rfl, ?_⟩
    unfold WebGPUDeleter.invoke
    cases (H A).m_ObjectDeleter.IsShared <;> rfl
  · intro h
    rw [Reset_calls, if_neg]
    rintro ⟨h1, h2⟩
    rcases h with h | h
    · exact h2 h
    · exact h1 h
  · intro hshared h hmem
    rw [Reset_calls] at hmem
    split at hmem
    · rcases invoke_calls _ _ _ hmem with h' | h'
      · cases h'
      · rw [hshared] at h'
        cases h'.2
    · cases hmem

/-- Witness for C15: the destination at address `1` holds handle `5` with a shared
deleter, the source at address `2` holds handle `6` with an owning deleter; the only
call is the shared deleter on `5`, without native release. -/
theorem moveAssign_transfers_witness :
    (1 : Nat) ≠ 2
      ∧ ((WebGPUObjectWrapper.moveAssign
          (fun a => if a = 1 then ⟨5, ⟨true⟩⟩ else ⟨6, ⟨false⟩⟩) 1 2).1 1).m_ObjectHandle = 6
      ∧ (WebGPUObjectWrapper.moveAssign
          (fun a => if a = 1 then ⟨5, ⟨true⟩⟩ else ⟨6, ⟨false⟩⟩) 1 2).2
          = [WebGPUCall.Deleter ⟨true⟩ 5] :=
  ⟨by decide,
    (moveAssign_transfers (fun a => if a = 1 then ⟨5, ⟨true⟩⟩ else ⟨6, ⟨false⟩⟩) 1 2
      (by decide)).1,
    ((moveAssign_transfers (fun a => if a = 1 then ⟨5, ⟨true⟩⟩ else ⟨6, ⟨false⟩⟩) 1 2
      (by decide)).2.2.2.2.2.2.2.1 (by decide) (by decide)).1⟩

/-- C16: the self-move-assignment `W = std::move(W)` makes no call at all (no deleter is
invoked) and leaves `W`, hence its handle, and every other object as they were. -/
theorem moveAssign_self (H : WrapperHeap) (W : Nat) :
    (WebGPUObjectWrapper.moveAssign H W W).2 = []
      ∧ deletedHandles (WebGPUObjectWrapper.moveAssign H W W).2 = []
      ∧ ((WebGPUObjectWrapper.moveAssign H W W).1 W).m_ObjectHandle = (H W).m_ObjectHandle
      ∧ (WebGPUObjectWrapper.moveAssign H W W).1 W = H W
      ∧ ∀ p, p ≠ W → (WebGPUObjectWrapper.moveAssign H W W).1 p = H p := by
  have hcalls : (WebGPUObjectWrapper.moveAssign H W W).2 = [] := by
    simp only [WebGPUObjectWrapper.moveAssign, WrapperHeap.set, WebGPUObjectWrapper.Release,
      WebGPUObjectWrapper.Reset, if_true]
    split <;> simp
  have hW : (WebGPUObjectWrapper.moveAssign H W W).1 W = H W := by
    simp only [WebGPUObjectWrapper.moveAssign, WrapperHeap.set, WebGPUObjectWrapper.Release,
      WebGPUObjectWrapper.Reset, if_true]
    split
    · rfl
    · rename_i h
      simp only [ne_eq, Decidable.not_not] at h
      cases hw : H W
      simp_all
  refine ⟨hcalls, by rw [hcalls]; rfl, by rw [hW], hW, ?_⟩
  intro p hp
  simp [WebGPUObjectWrapper.moveAssign, WrapperHeap.set, hp]

/-! ## WebGPUObjectWrapper: every handle is released once -/

/-- Handles passed to a deleter in a concatenation of call logs. -/
theorem deletedHandles_append (a b : List WebGPUCall) :
    deletedHandles (a ++ b) = deletedHandles a ++ deletedHandles b := by
  induction a with
  | nil => rfl
  | cons c cs ih =>
    cases c with
    | Deleter d h => simp [deletedHandles, ih]
    | NativeRelease h => simp [deletedHandles, ih]

/-- One deleter invocation passes exactly its handle. -/
theorem deletedHandles_invoke (d : WebGPUDeleter) (Handle : Nat) :
    deletedHandles (d.invoke Handle) = [Handle] := by
  unfold WebGPUDeleter.invoke
  cases d.IsShared <;> rfl

/-- Handles returned by `Release()` during a run are null, the handle held at the start,
or a handle installed by a `Reset` of the run. -/
theorem returned_subset (ops : List WrapperOp) :
    ∀ (w : WebGPUObjectWrapper), ∀ x ∈ (runWrapper w ops).returned,
      x = 0 ∨ x = w.m_ObjectHandle ∨ x ∈ installsFrom w.m_ObjectHandle ops := by
  induction ops with
  | nil =>
    intro w x hx
    simp [runWrapper] at hx
  | cons op ops ih =>
    intro w x hx
    cases op with
    | Reset Handle =>
      simp only [runWrapper] at hx
      have h := ih _ x hx
      rw [Reset_handle] at h
      by_cases hc : w.m_ObjectHandle = Handle
      · simp only [installsFrom, hc, ne_eq, not_true_eq_false, if_false]
        rcases h with h | h | h
        · exact Or.inl h
        · exact Or.inr (Or.inl h)
        · exact Or.inr (Or.inr h)
      · simp only [installsFrom, ne_eq, hc, not_false_eq_true, if_true, List.mem_cons]
        rcases h with h | h | h
        · exact Or.inl h
        · exact Or.inr (Or.inr (Or.inl h))
        · exact Or.inr (Or.inr (Or.inr h))
    | Release =>
      simp only [runWrapper, List.mem_cons, WebGPUObjectWrapper.Release] at hx
      rcases hx with hx | hx
      · exact Or.inr (Or.inl hx)
      · have h := ih _ x hx
        simp only [installsFrom]
        rcases h with h | h | h
        · exact Or.inl h
        · exact Or.inl h
        · exact Or.inr (Or.inr h)

/-- The deleter log of a run followed by destruction lists the installed non-null
handles that no `Release()` returned, in the order of installation, provided the
installed non-null handles are pairwise distinct. -/
theorem deletedHandles_runWrapper (ops : List WrapperOp) :
    ∀ (w : WebGPUObjectWrapper), (installedHandles w ops).Nodup →
      deletedHandles (runWrapper w ops).calls
        = (installedHandles w ops).filter
            (fun h => decide (h ∉ (runWrapper w ops).returned)) := by
  induction ops with
  | nil =>
    intro w _
    by_cases h0 : w.m_ObjectHandle = 0
    · simp [runWrapper, installedHandles, installsFrom, WebGPUObjectWrapper.destroy, h0,
        deletedHandles]
    · simp [runWrapper, installedHandles, installsFrom, WebGPUObjectWrapper.destroy, h0,
        deletedHandles_invoke]
  | cons op ops ih =>
    intro w hnd
    cases op with
    | Reset Handle =>
      by_cases hc : w.m_ObjectHandle = Handle
      · have hw : (w.Reset Handle) = (w, []) := by
          simp [WebGPUObjectWrapper.Reset, hc]
        have hinst : installedHandles w (WrapperOp.Reset Handle :: ops)
            = installedHandles w ops := by
          simp [installedHandles, installsFrom, hc]
        rw [hinst] at hnd ⊢
        simp only [runWrapper, hw, List.nil_append]
        exact ih w hnd
      · have hinst : installedHandles w (WrapperOp.Reset Handle :: ops)
            = [w.m_ObjectHandle].filter (fun h => decide (h ≠ 0))
              ++ installedHandles (w.Reset Handle).1 ops := by
          simp only [installedHandles, installsFrom, ne_eq, hc, not_false_eq_true, if_true,
            Reset_handle]
          rw [← List.filter_append]
          rfl
        rw [hinst] at hnd ⊢
        have hnd2 := (List.nodup_append.mp hnd).2.1
        have hdisj := (List.nodup_append.mp hnd).2.2
        simp only [runWrapper, deletedHandles_append, List.filter_append]
        rw [ih _ hnd2, Reset_calls]
        congr 1
        by_cases h0 : w.m_ObjectHandle = 0
        · simp [h0, deletedHandles]
        · have hmem : w.m_ObjectHandle
              ∈ [w.m_ObjectHandle].filter (fun h => decide (h ≠ 0)) := by
            simp [h0]
          have hnot : w.m_ObjectHandle ∉ (runWrapper (w.Reset Handle).1 ops).returned := by
            intro hx
            have hsub := returned_subset ops _ _ hx
            rw [Reset_handle] at hsub
            have hin : w.m_ObjectHandle ∈ installedHandles (w.Reset Handle).1 ops := by
              simp only [installedHandles, Reset_handle, List.mem_filter, List.mem_cons,
                decide_eq_true_eq]
              rcases hsub with h | h | h
              · exact absurd h h0
              · exact ⟨Or.inl h, h0⟩
              · exact ⟨Or.inr h, h0⟩
            exact hdisj hmem hin
          simp [h0, hc, hnot, deletedHandles_invoke]
    | Release =>
      have hinst : installedHandles w (WrapperOp.Release :: ops)
          = [w.m_ObjectHandle].filter (fun h => decide (h ≠ 0))
            ++ installedHandles w.Release.2 ops := by
        simp only [installedHandles, installsFrom, WebGPUObjectWrapper.Release]
        have hz : List.filter (fun h => decide (h ≠ 0)) (0 :: installsFrom 0 ops)
            = List.filter (fun h => decide (h ≠ 0)) (installsFrom 0 ops) := by
          simp [List.filter_cons]
        rw [hz, ← List.filter_append]
        rfl
      rw [hinst] at hnd ⊢
      have hnd2 := (List.nodup_append.mp hnd).2.1
      have hdisj := (List.nodup_append.mp hnd).2.2
      simp only [runWrapper, List.filter_append]
      rw [ih _ hnd2]
      have hfirst : ([w.m_ObjectHandle].filter (fun h => decide (h ≠ 0))).filter
          (fun h => decide (h ∉ w.Release.1 :: (runWrapper w.Release.2 ops).returned)) = [] := by
        by_cases h0 : w.m_ObjectHandle = 0
        · simp [h0]
        · simp [h0, WebGPUObjectWrapper.Release]
      rw [hfirst, List.nil_append]
      apply List.filter_congr
      intro x hx
      have hx0 : x ≠ 0 := by
        simp only [installedHandles, List.mem_filter, decide_eq_true_eq] at hx
        exact hx.2
      have hxw : x ≠ w.m_ObjectHandle := by
        intro heq
        by_cases h0 : w.m_ObjectHandle = 0
        · exact hx0 (heq.trans h0)
        · have hmem : w.m_ObjectHandle
              ∈ [w.m_ObjectHandle].filter (fun h => decide (h ≠ 0)) := by
            simp [h0]
          exact hdisj hmem (heq ▸ hx)
      simp [WebGPUObjectWrapper.Release, hxw]

/-- C14: for every wrapper and every sequence of `Reset(h)` and `Release()` calls
followed by destruction in which the installed non-null handles are pairwise distinct,
the handles passed to the deleter are exactly the installed non-null handles that no
`Release()` returned, each once: an installed handle not returned by `Release()` is
passed exactly once, a handle returned by `Release()` never, the null handle never, and
no handle twice. `Reset` with the currently held handle makes no call and changes
nothing. -/
theorem wrapper_releases_once (w : WebGPUObjectWrapper) (ops : List WrapperOp)
    (hnd : (installedHandles w ops).Nodup) :
    deletedHandles (runWrapper w ops).calls
        = (installedHandles w ops).filter
            (fun h => decide (h ∉ (runWrapper w ops).returned))
      ∧ (∀ h ∈ installedHandles w ops, h ∉ (runWrapper w ops).returned →
          (deletedHandles (runWrapper w ops).calls).count h = 1)
      ∧ (∀ h ∈ (runWrapper w ops).returned, h ∉ deletedHandles (runWrapper w ops).calls)
      ∧ 0 ∉ deletedHandles (runWrapper w ops).calls
      ∧ (deletedHandles (runWrapper w ops).calls).Nodup
      ∧ (∀ v : WebGPUObjectWrapper, v.Reset v.m_ObjectHandle = (v, [])) := by
  have key := deletedHandles_runWrapper ops w hnd
  rw [key]
  have hnd' : ((installedHandles w ops).filter
      (fun h => decide (h ∉ (runWrapper w ops).returned))).Nodup := hnd.filter _
  refine ⟨rfl, ?_, ?_, ?_, hnd', ?_⟩
  · intro h hin hnot
    apply List.count_eq_one_of_mem hnd'
    simp [List.mem_filter, hin, hnot]
  · intro h hret hmem
    simp only [List.mem_filter, decide_eq_true_eq] at hmem
    exact hmem.2 hret
  · intro hmem
    simp [List.mem_filter, installedHandles] at hmem
  · intro v
    simp [WebGPUObjectWrapper.Reset]

/-- Witness for C14: a wrapper built with handle `5`; `6` is installed and taken out by
`Release()`, `7` is installed and replaced by null, `9` is installed and still held at
destruction. The deleter receives `5`, `7` and `9`. -/
theorem wrapper_releases_once_witness :
    (installedHandles ⟨5, ⟨false⟩⟩
        [WrapperOp.Reset 6, WrapperOp.Reset 6, WrapperOp.Release, WrapperOp.Reset 7,
          WrapperOp.Reset 0, WrapperOp.Release, WrapperOp.Reset 9]).Nodup
      ∧ deletedHandles (runWrapper ⟨5, ⟨false⟩⟩
          [WrapperOp.Reset 6, WrapperOp.Reset 6, WrapperOp.Release, WrapperOp.Reset 7,
            WrapperOp.Reset 0, WrapperOp.Release, WrapperOp.Reset 9]).calls = [5, 7, 9] :=
  ⟨by decide,
    (wrapper_releases_once ⟨5, ⟨false⟩⟩
      [WrapperOp.Reset 6, WrapperOp.Reset 6, WrapperOp.Release, WrapperOp.Reset 7,
        WrapperOp.Reset 0, WrapperOp.Release, WrapperOp.Reset 9] (by decide)).1.trans
      (by decide)⟩

/-! ## Lemmas on the barrier -/

/-- Replacing one worker changes a count by the difference of the two measures. -/
theorem total_set (f : WorkerThread → Nat) (l : List WorkerThread) :
    ∀ (i : Nat) (w w' : WorkerThread), l[i]? = some w →
      total f (l.set i w') + f w = total f l + f w' := by
  induction l with
  | nil =>
    intro i w w' h
    simp at h
  | cons a rest ih =>
    intro i w w' h
    cases i with
    | zero =>
      simp only [List.getElem?_cons_zero, Option.some.injEq] at h
      subst h
      simp only [total, List.set_cons_zero, List.map_cons, List.sum_cons]
      omega
    | succ i =>
      simp only [List.getElem?_cons_succ] at h
      have := ih i w w' h
      simp only [total, List.set_cons_succ, List.map_cons, List.sum_cons] at this ⊢
      omega

/-- A count by a 0/1 measure is at most the number of workers. -/
theorem total_le_length (f : WorkerThread → Nat) (hf : ∀ w, f w ≤ 1)
    (l : List WorkerThread) : total f l ≤ l.length := by
  induction l with
  | nil => simp [total]
  | cons a rest ih =>
    have := hf a
    simp only [total, List.map_cons, List.sum_cons, List.length_cons] at ih ⊢
    omega

/-- A count is zero when the measure vanishes on every worker. -/
theorem total_eq_zero (f : WorkerThread → Nat) (l : List WorkerThread)
    (h : ∀ w ∈ l, f w = 0) : total f l = 0 := by
  induction l with
  | nil => simp [total]
  | cons a rest ih =>
    have ha := h a (List.mem_cons_self a rest)
    have := ih (fun w hw => h w (List.mem_cons_of_mem a hw))
    simp only [total, List.map_cons, List.sum_cons] at this ⊢
    omega

/-- A count is the number of workers when the measure is one on every worker. -/
theorem total_eq_length (f : WorkerThread → Nat) (l : List WorkerThread)
    (h : ∀ w ∈ l, f w = 1) : total f l = l.length := by
  induction l with
  | nil => simp [total]
  | cons a rest ih =>
    have ha := h a (List.mem_cons_self a rest)
    have := ih (fun w hw => h w (List.mem_cons_of_mem a hw))
    simp only [total, List.map_cons, List.sum_cons, List.length_cons] at this ⊢
    omega

/-- When a 0/1 count reaches the number of workers, the measure is one on every
worker. -/
theorem one_of_total_eq_length (f : WorkerThread → Nat) (hf : ∀ w, f w ≤ 1)
    (l : List WorkerThread) (h : total f l = l.length) : ∀ w ∈ l, f w = 1 := by
  induction l with
  | nil =>
    intro w hw
    cases hw
  | cons a rest ih =>
    intro w hw
    have ha := hf a
    have hle := total_le_length f hf rest
    simp only [total, List.map_cons, List.sum_cons, List.length_cons] at h hle
    rcases List.mem_cons.mp hw with hw | hw
    · subst hw
      omega
    · exact ih (by simp only [total]; omega) w hw

/-- The measure `awake` is 0 or 1. -/
theorem awake_le_one (idx : Int) (w : WorkerThread) : awake idx w ≤ 1 := by
  unfold awake
  split <;> try split
  all_goals omega

/-- The measure `arrived` is 0 or 1. -/
theorem arrived_le_one (idx : Int) (w : WorkerThread) : arrived idx w ≤ 1 := by
  unfold arrived
  split <;> try split
  all_goals omega

/-- The measure `isReturned` is 0 or 1. -/
theorem isReturned_le_one (w : WorkerThread) : isReturned w ≤ 1 := by
  unfold isReturned
  split <;> omega

/-- The measure `atTrigger` is 0 or 1. -/
theorem atTrigger_le_one (w : WorkerThread) : atTrigger w ≤ 1 := by
  unfold atTrigger
  split <;> omega

/-- A property of all workers survives the replacement of one worker by a worker that
has it. -/
theorem forall_mem_set {P : WorkerThread → Prop} (l : List WorkerThread) (i : Nat)
    (w' : WorkerThread) (h : ∀ w ∈ l, P w) (hw' : P w') : ∀ w ∈ l.set i w', P w := by
  intro w hw
  rcases List.mem_or_eq_of_mem_set hw with hw | hw
  · exact h w hw
  · rw [hw]
    exact hw'

/-- The worker at a position of the list is a member of the list. -/
theorem mem_of_getElem?_eq {l : List WorkerThread} {i : Nat} {w : WorkerThread}
    (h : l[i]? = some w) : w ∈ l :=
  List.getElem?_mem h
/-- A count is zero only when the measure vanishes on every worker. -/
theorem zero_of_total_eq_zero (f : WorkerThread → Nat) (l : List WorkerThread)
    (h : total f l = 0) : ∀ w ∈ l, f w = 0 := by
  induction l with
  | nil =>
    intro w hw
    cases hw
  | cons a rest ih =>
    intro w hw
    simp only [total, List.map_cons, List.sum_cons] at h
    rcases List.mem_cons.mp hw with hw | hw
    · subst hw
      omega
    · exact ih (by simp only [total]; omega) w hw

/-- The two indices of the alternating signals differ. -/
theorem other_ne (idx : Int) : 1 - idx ≠ idx := by
  omega

/-- A worker that is idle between two iterations counts for nothing in the next one. -/
theorem okIdle_measures (idx : Int) (iter : Nat) (w : WorkerThread) (h : okIdle idx iter w) :
    awake idx w = 0 ∧ arrived idx w = 0 ∧ atTrigger w = 0 ∧ isReturned w = 0
      ∧ okWait idx iter w ∧ okJoin idx iter w := by
  obtain ⟨pc, sidx, passes⟩ := w
  have hne := other_ne idx
  cases pc <;> simp_all [okIdle, awake, arrived, atTrigger, isReturned, okWait, okJoin]

/-- A worker that has arrived and is not in the triggering branch has finished the
iteration. -/
theorem okWait_done (idx : Int) (iter : Nat) (w : WorkerThread) (h : okWait idx iter w)
    (ha : arrived idx w = 1) (ht : atTrigger w = 0) :
    okRelease idx iter w ∧ awake idx w = 1 := by
  obtain ⟨pc, sidx, passes⟩ := w
  have hne := other_ne idx
  cases pc <;> simp only [okWait, arrived, atTrigger, okRelease, awake] at h ha ht ⊢
  case waitSignal =>
    rcases h with ⟨h1, h2⟩ | ⟨h1, h2⟩
    · rw [if_pos h1] at ha
      omega
    · refine ⟨⟨h2, h1⟩, ?_⟩
      rw [if_neg (by omega)]
  case spin =>
    rcases h with ⟨h1, h2⟩ | ⟨h1, h2⟩
    · rw [if_neg (by omega)] at ha
      omega
    · refine ⟨⟨h2, h1⟩, ?_⟩
      rw [if_pos h1]
  all_goals omega

/-- The main thread keeps the invariant. -/
theorem mainStep_inv (K : Nat) (s s' : TestState) (h : Inv s)
    (hs : mainStep K s = some s') : Inv s' := by
  have hp := h.phase
  have hne := other_ne s.SignalIdx
  unfold mainStep at hs
  cases hm : s.mainPC <;> rw [hm] at hs hp <;> simp only [] at hs hp
  · -- reset
    injection hs with hs
    subst hs
    refine ⟨h.pos, h.rel, h.noFail, h.other, ?_, ?_⟩
    · intro w hw hpc hidx
      have := h.lag w hw hpc hidx
      simpa [store, hne] using this
    · exact ⟨hp, by simp [store]⟩
  · -- start
    injection hs with hs
    subst hs
    obtain ⟨⟨hws, hms, htr, hst, hok⟩, hcnt⟩ := hp
    refine ⟨h.pos, h.rel, h.noFail, ?_, ?_, ?_⟩
    · simpa [store, hne] using h.other
    · exact h.lag
    · have hA : total (awake s.SignalIdx) s.workers = 0 :=
        total_eq_zero _ _ (fun w hw => (okIdle_measures _ _ w (hok w hw)).1)
      have hC : total (arrived s.SignalIdx) s.workers = 0 :=
        total_eq_zero _ _ (fun w hw => (okIdle_measures _ _ w (hok w hw)).2.1)
      have hT : total atTrigger s.workers = 0 :=
        total_eq_zero _ _ (fun w hw => (okIdle_measures _ _ w (hok w hw)).2.2.1)
      have hpos := h.pos
      refine ⟨by simp [hst], fun w hw => (okIdle_measures _ _ w (hok w hw)).2.2.2.2.1,
        ?_, ?_, Or.inl htr, ?_, ?_⟩
      · simp only [store, if_true, hws, Signal.Trigger, hA, signalOf]
        rw [if_neg (by omega)]
        rfl
      · simp [hcnt, hC]
      · simp [hms, htr]
      · simp only [hT, hC, htr]
        rw [if_neg (by omega)]
        omega
  · -- wait
    obtain ⟨hst, hok, hws, hcnt, htr, hms, hT⟩ := hp
    rcases htr with htr | htr
    · simp [hms, htr, Signal.Wait] at hs
    · have hms' : s.m_MainThreadSignal = ⟨1, 0⟩ := by
        rw [hms, if_neg (by omega)]
      simp only [hms', Signal.Wait] at hs
      simp only [one_ne_zero, if_false, zero_add, if_true, Option.some.injEq] at hs
      subst hs
      have hC : total (arrived s.SignalIdx) s.workers = s.workers.length := by
        by_contra hne'
        rw [if_neg hne'] at hT
        omega
      have hT0 : total atTrigger s.workers = 0 := by
        rw [if_pos hC] at hT
        omega
      have hall : ∀ w ∈ s.workers, okRelease s.SignalIdx s.iter w ∧ awake s.SignalIdx w = 1 :=
        fun w hw => okWait_done _ _ w (hok w hw)
          (one_of_total_eq_length _ (arrived_le_one _) _ hC w hw)
          (zero_of_total_eq_zero _ _ hT0 w hw)
      have hA : total (awake s.SignalIdx) s.workers = s.workers.length :=
        total_eq_length _ _ (fun w hw => (hall w hw).2)
      refine ⟨h.pos, h.rel, h.noFail, h.other, h.lag, ?_⟩
      refine ⟨hst, htr, ?_, rfl, ?_, fun w hw => (hall w hw).1⟩
      · simp [hws, hA, signalOf]
      · simp [hcnt, hC, TestState.NumThreads]
  · -- release
    injection hs with hs
    subst hs
    obtain ⟨hst, htr, hws, hms, hcnt, hok⟩ := hp
    have hidle : Idle { s with
        releases := s.releases + 1, SignalIdx := 1 - s.SignalIdx, iter := s.iter + 1,
        mainPC := if s.iter + 1 < K then MainPC.reset else MainPC.stop } := by
      refine ⟨h.other, hms, htr, hst, ?_⟩
      intro w hw
      have := hok w hw
      obtain ⟨pc, sidx, passes⟩ := w
      cases pc <;> simp_all [okRelease, okIdle]
    refine ⟨h.pos, ?_, h.noFail, ?_, ?_, ?_⟩
    · simp [h.rel]
    · simpa using hws
    · intro w _ _ _
      simpa [TestState.NumThreads] using hcnt
    · by_cases hk : s.iter + 1 < K
      · simp only [hk, if_true] at hidle ⊢
        exact hidle
      · simp only [hk, if_false] at hidle ⊢
        exact hidle
  · -- stop
    injection hs with hs
    subst hs
    obtain ⟨hws, hms, htr, hst, hok⟩ := hp
    have hR : total isReturned s.workers = 0 :=
      total_eq_zero _ _ (fun w hw => (okIdle_measures _ _ w (hok w hw)).2.2.2.1)
    have hpos := h.pos
    refine ⟨h.pos, h.rel, h.noFail, ?_, h.lag, ?_⟩
    · simpa [store, hne] using h.other
    · refine ⟨htr, hst, hms, ?_, fun w hw => (okIdle_measures _ _ w (hok w hw)).2.2.2.2.2⟩
      simp only [store, if_true, hws, Signal.Trigger, hR, signalOf]
      rw [if_neg (by omega)]
      rfl
  · -- join
    cases hs
/-- Replacing a worker by one with the same measures that fits the phase of the main
thread keeps the invariant. -/
theorem inv_replace (s : TestState) (i : Nat) (w w' : WorkerThread) (h : Inv s)
    (hw : s.workers[i]? = some w)
    (hlag : w'.pc = WorkerPC.spin → w'.SignalIdx = 1 - s.SignalIdx →
      s.m_NumThreadsCompleted (1 - s.SignalIdx) = s.NumThreads)
    (hIdle : okIdle s.SignalIdx s.iter w → okIdle s.SignalIdx s.iter w')
    (hWait : okWait s.SignalIdx s.iter w →
      okWait s.SignalIdx s.iter w' ∧ awake s.SignalIdx w' = awake s.SignalIdx w
        ∧ arrived s.SignalIdx w' = arrived s.SignalIdx w ∧ atTrigger w' = atTrigger w)
    (hRel : okRelease s.SignalIdx s.iter w → okRelease s.SignalIdx s.iter w')
    (hJoin : okJoin s.SignalIdx s.iter w →
      okJoin s.SignalIdx s.iter w' ∧ isReturned w' = isReturned w) :
    Inv { s with workers := s.workers.set i w' } := by
  have hmem := List.getElem?_mem hw
  have hp := h.phase
  have hlen : (s.workers.set i w').length = s.workers.length := List.length_set _ _ _
  refine ⟨by simpa using h.pos, h.rel, h.noFail, h.other, ?_, ?_⟩
  · intro x hx hpc hidx
    simp only [TestState.NumThreads, hlen]
    rcases List.mem_or_eq_of_mem_set hx with hx | hx
    · exact h.lag x hx hpc hidx
    · subst hx
      exact hlag hpc hidx
  · cases hm : s.mainPC <;> rw [hm] at hp <;> simp only [] at hp ⊢
    · obtain ⟨hws, hms, htr, hst, hok⟩ := hp
      exact ⟨hws, hms, htr, hst, forall_mem_set _ _ _ hok (hIdle (hok w hmem))⟩
    · obtain ⟨⟨hws, hms, htr, hst, hok⟩, hcnt⟩ := hp
      exact ⟨⟨hws, hms, htr, hst, forall_mem_set _ _ _ hok (hIdle (hok w hmem))⟩, hcnt⟩
    · obtain ⟨hst, hok, hws, hcnt, htr, hms, hT⟩ := hp
      obtain ⟨hok', hA, hC, hTr⟩ := hWait (hok w hmem)
      have eA := total_set (awake s.SignalIdx) s.workers i w w' hw
      have eC := total_set (arrived s.SignalIdx) s.workers i w w' hw
      have eT := total_set atTrigger s.workers i w w' hw
      have eA' : total (awake s.SignalIdx) (s.workers.set i w')
          = total (awake s.SignalIdx) s.workers := by omega
      have eC' : total (arrived s.SignalIdx) (s.workers.set i w')
          = total (arrived s.SignalIdx) s.workers := by omega
      have eT' : total atTrigger (s.workers.set i w') = total atTrigger s.workers := by omega
      refine ⟨hst, forall_mem_set _ _ _ hok hok', ?_, ?_, htr, hms, ?_⟩
      · simp only [eA', hlen]
        exact hws
      · simp only [eC']
        exact hcnt
      · simp only [eC', eT', hlen]
        exact hT
    · obtain ⟨hst, htr, hws, hms, hcnt, hok⟩ := hp
      refine ⟨hst, htr, hws, hms, ?_, forall_mem_set _ _ _ hok (hRel (hok w hmem))⟩
      simpa [TestState.NumThreads, hlen] using hcnt
    · obtain ⟨hws, hms, htr, hst, hok⟩ := hp
      exact ⟨hws, hms, htr, hst, forall_mem_set _ _ _ hok (hIdle (hok w hmem))⟩
    · obtain ⟨htr, hst, hms, hws, hok⟩ := hp
      obtain ⟨hok', hR⟩ := hJoin (hok w hmem)
      have eR := total_set isReturned s.workers i w w' hw
      have eR' : total isReturned (s.workers.set i w') = total isReturned s.workers := by
        omega
      refine ⟨htr, hst, hms, ?_, forall_mem_set _ _ _ hok hok'⟩
      simp only [eR', hlen]
      exact hws
/-- A 0/1 count is below the number of workers when some worker is not counted. -/
theorem total_lt_length (f : WorkerThread → Nat) (hf : ∀ w, f w ≤ 1)
    (l : List WorkerThread) (w : WorkerThread) (hw : w ∈ l) (h0 : f w = 0) :
    total f l < l.length := by
  have hle := total_le_length f hf l
  by_contra hge
  have := one_of_total_eq_length f hf l (by omega) w hw
  omega

/-- What the invariant says about a worker, by the position of the main thread. -/
theorem phase_cases (s : TestState) (h : Inv s) (w : WorkerThread) (hw : w ∈ s.workers) :
    (Idle s ∧ okIdle s.SignalIdx s.iter w)
      ∨ (s.mainPC = MainPC.wait ∧ Waiting s ∧ okWait s.SignalIdx s.iter w)
      ∨ (Releasing s ∧ okRelease s.SignalIdx s.iter w)
      ∨ (s.mainPC = MainPC.join ∧ Joining s ∧ okJoin s.SignalIdx s.iter w) := by
  have hp := h.phase
  cases hm : s.mainPC <;> rw [hm] at hp <;> simp only [] at hp
  · exact Or.inl ⟨hp, hp.2.2.2.2 w hw⟩
  · exact Or.inl ⟨hp.1, hp.1.2.2.2.2 w hw⟩
  · exact Or.inr (Or.inl ⟨rfl, hp, hp.2.1 w hw⟩)
  · exact Or.inr (Or.inr (Or.inl ⟨hp, hp.2.2.2.2.2 w hw⟩))
  · exact Or.inl ⟨hp, hp.2.2.2.2 w hw⟩
  · exact Or.inr (Or.inr (Or.inr ⟨rfl, hp, hp.2.2.2.2 w hw⟩))

/-- A worker that finishes its creation pass keeps the invariant. -/
theorem create_inv (s : TestState) (i : Nat) (sidx : Int) (passes : Nat) (h : Inv s)
    (hw : s.workers[i]? = some ⟨WorkerPC.create, sidx, passes⟩) :
    Inv { s with workers := s.workers.set i ⟨WorkerPC.arrive, sidx, passes + 1⟩ } := by
  apply inv_replace s i _ _ h hw
  · intro hpc
    cases hpc
  · intro hok
    simp [okIdle] at hok
  · intro hok
    simp only [okWait] at hok
    simp [okWait, awake, arrived, atTrigger, hok.1, hok.2]
  · intro hok
    simp [okRelease] at hok
  · intro hok
    simp [okJoin] at hok

/-- A worker that leaves the spin loop keeps the invariant. -/
theorem spin_exit_inv (s : TestState) (i : Nat) (sidx : Int) (passes : Nat) (h : Inv s)
    (hw : s.workers[i]? = some ⟨WorkerPC.spin, sidx, passes⟩) :
    Inv { s with workers := s.workers.set i ⟨WorkerPC.waitSignal, 1 - sidx, passes⟩ } := by
  have hne := other_ne s.SignalIdx
  apply inv_replace s i _ _ h hw
  · intro hpc
    cases hpc
  · intro hok
    simp only [okIdle] at hok ⊢
    refine ⟨hok.1, ?_⟩
    omega
  · intro hok
    simp only [okWait, awake, arrived, atTrigger] at hok ⊢
    rcases hok with ⟨h1, h2⟩ | ⟨h1, h2⟩
    · refine ⟨Or.inl ⟨by omega, h2⟩, ?_, ?_, trivial⟩
      · rw [if_pos (by omega), if_neg (by omega)]
      · rw [if_pos (by omega), if_neg (by omega)]
    · refine ⟨Or.inr ⟨by omega, h2⟩, ?_, ?_, trivial⟩
      · rw [if_neg (by omega), if_pos (by omega)]
      · rw [if_neg (by omega), if_pos (by omega)]
  · intro hok
    simp only [okRelease] at hok ⊢
    refine ⟨hok.1, ?_⟩
    omega
  · intro hok
    simp only [okJoin, isReturned] at hok ⊢
    refine ⟨⟨hok.1, ?_⟩, trivial⟩
    omega

/-- A worker whose assertion on the other worker signal passes keeps the invariant, and
the assertion does pass. -/
theorem assertOther_inv (s : TestState) (i : Nat) (sidx : Int) (passes : Nat) (h : Inv s)
    (hw : s.workers[i]? = some ⟨WorkerPC.assertOther, sidx, passes⟩) :
    (s.m_WorkerThreadSignal (1 - sidx)).IsTriggered = false
      ∧ Inv { s with workers := s.workers.set i ⟨WorkerPC.trigger, sidx, passes⟩ } := by
  have hmem := List.getElem?_mem hw
  constructor
  · rcases phase_cases s h _ hmem with ⟨_, hok⟩ | ⟨_, _, hok⟩ | ⟨_, hok⟩ | ⟨_, _, hok⟩
    · simp [okIdle] at hok
    · simp only [okWait] at hok
      rw [hok.1, h.other]
      rfl
    · simp [okRelease] at hok
    · simp [okJoin] at hok
  · apply inv_replace s i _ _ h hw
    · intro hpc
      cases hpc
    · intro hok
      simp [okIdle] at hok
    · intro hok
      simp only [okWait] at hok
      simp [okWait, awake, arrived, atTrigger, hok.1, hok.2]
    · intro hok
      simp [okRelease] at hok
    · intro hok
      simp [okJoin] at hok
/-- The step of a worker that increments the counter, for any next position `w'` of the
worker that counts as arrived and is in the triggering branch exactly when the counter
reaches the number of threads. -/
theorem arrive_core (s : TestState) (i : Nat) (sidx : Int) (passes : Nat) (h : Inv s)
    (hw : s.workers[i]? = some ⟨WorkerPC.arrive, sidx, passes⟩)
    (w' : WorkerThread) (t : Nat)
    (hok' : okWait s.SignalIdx s.iter w') (hA' : awake s.SignalIdx w' = 1)
    (hC' : arrived s.SignalIdx w' = 1) (hT' : atTrigger w' = t)
    (hspin : w'.pc = WorkerPC.spin → w'.SignalIdx ≠ 1 - s.SignalIdx)
    (ht : t = if s.m_NumThreadsCompleted sidx + 1 = s.NumThreads then 1 else 0) :
    Inv { s with
      m_NumThreadsCompleted :=
        store s.m_NumThreadsCompleted sidx (s.m_NumThreadsCompleted sidx + 1),
      workers := s.workers.set i w' } := by
  have hmem := List.getElem?_mem hw
  have hne := other_ne s.SignalIdx
  have hlen : (s.workers.set i w').length = s.workers.length := List.length_set _ _ _
  have hNT : s.NumThreads = (s.workers.length : Int) := rfl
  rcases phase_cases s h _ hmem with ⟨_, hok⟩ | ⟨hm, hp, hok⟩ | ⟨_, hok⟩ | ⟨_, _, hok⟩
  · simp [okIdle] at hok
  · simp only [okWait] at hok
    obtain ⟨hsidx, hpasses⟩ := hok
    subst hsidx
    obtain ⟨hst, hok, hws, hcnt, htr, hms, hT⟩ := hp
    have hClt := total_lt_length (arrived s.SignalIdx) (arrived_le_one _) s.workers _ hmem rfl
    rw [if_neg (by omega)] at hT
    have eA := total_set (awake s.SignalIdx) s.workers i _ w' hw
    have eC := total_set (arrived s.SignalIdx) s.workers i _ w' hw
    have eT := total_set atTrigger s.workers i _ w' hw
    rw [hA'] at eA
    rw [hC'] at eC
    rw [hT'] at eT
    simp only [awake, arrived, atTrigger] at eA eC eT
    refine ⟨by simpa [hlen] using h.pos, h.rel, h.noFail, h.other, ?_, ?_⟩
    · intro x hx hpc hidx
      simp only [TestState.NumThreads, hlen, store]
      rw [if_neg hne]
      rcases List.mem_or_eq_of_mem_set hx with hx | hx
      · exact h.lag x hx hpc hidx
      · subst hx
        exact absurd hidx (hspin hpc)
    · rw [show s.mainPC = MainPC.wait from hm]
      refine ⟨hst, forall_mem_set _ _ _ hok hok', ?_, ?_, htr, hms, ?_⟩
      · simp only [hlen]
        rw [show total (awake s.SignalIdx) (s.workers.set i w')
          = total (awake s.SignalIdx) s.workers by omega]
        exact hws
      · simp only [store, if_true]
        rw [hcnt]
        omega
      · simp only [hlen]
        by_cases hv : s.m_NumThreadsCompleted s.SignalIdx + 1 = s.NumThreads
        · rw [if_pos hv] at ht
          rw [if_pos (by omega)]
          omega
        · rw [if_neg hv] at ht
          rw [if_neg (by omega)]
          omega
  · simp [okRelease] at hok
  · simp [okJoin] at hok

/-- A worker that increments the counter keeps the invariant. -/
theorem arrive_inv (s : TestState) (i : Nat) (sidx : Int) (passes : Nat) (h : Inv s)
    (hw : s.workers[i]? = some ⟨WorkerPC.arrive, sidx, passes⟩) :
    Inv { s with
      m_NumThreadsCompleted :=
        store s.m_NumThreadsCompleted sidx (s.m_NumThreadsCompleted sidx + 1),
      workers := s.workers.set i
        ⟨if s.m_NumThreadsCompleted sidx + 1 = s.NumThreads then WorkerPC.assertOther
          else WorkerPC.spin, sidx, passes⟩ } := by
  have hmem := List.getElem?_mem hw
  have hne := other_ne s.SignalIdx
  rcases phase_cases s h _ hmem with ⟨_, hok⟩ | ⟨hm, hp, hok⟩ | ⟨_, hok⟩ | ⟨_, _, hok⟩
  · simp [okIdle] at hok
  · simp only [okWait] at hok
    obtain ⟨hsidx, hpasses⟩ := hok
    by_cases hv : s.m_NumThreadsCompleted sidx + 1 = s.NumThreads
    · rw [if_pos hv]
      apply arrive_core s i sidx passes h hw _ 1
      · simp only [okWait]
        exact ⟨hsidx, hpasses⟩
      · rfl
      · rfl
      · rfl
      · intro hpc
        cases hpc
      · rw [if_pos hv]
    · rw [if_neg hv]
      apply arrive_core s i sidx passes h hw _ 0
      · simp only [okWait]
        exact Or.inr ⟨hsidx, hpasses⟩
      · simp only [awake]
        rw [if_pos hsidx]
      · simp only [arrived]
        rw [if_pos hsidx]
      · rfl
      · intro _
        simp only []
        omega
      · rw [if_neg hv]
  · simp [okRelease] at hok
  · simp [okJoin] at hok

/-- A worker that triggers the main-thread signal keeps the invariant. -/
theorem trigger_inv (s : TestState) (i : Nat) (sidx : Int) (passes : Nat) (h : Inv s)
    (hw : s.workers[i]? = some ⟨WorkerPC.trigger, sidx, passes⟩) :
    Inv { s with
      m_MainThreadSignal := s.m_MainThreadSignal.Trigger 1,
      triggers := s.triggers + 1,
      workers := s.workers.set i ⟨WorkerPC.waitSignal, 1 - sidx, passes⟩ } := by
  have hmem := List.getElem?_mem hw
  have hne := other_ne s.SignalIdx
  have hlen : ∀ w', (s.workers.set i w').length = s.workers.length :=
    fun _ => List.length_set _ _ _
  rcases phase_cases s h _ hmem with ⟨_, hok⟩ | ⟨hm, hp, hok⟩ | ⟨_, hok⟩ | ⟨_, _, hok⟩
  · simp [okIdle] at hok
  · simp only [okWait] at hok
    obtain ⟨hsidx, hpasses⟩ := hok
    subst hsidx
    obtain ⟨hst, hok, hws, hcnt, htr, hms, hT⟩ := hp
    have eA := total_set (awake s.SignalIdx) s.workers i _
      ⟨WorkerPC.waitSignal, 1 - s.SignalIdx, passes⟩ hw
    have eC := total_set (arrived s.SignalIdx) s.workers i _
      ⟨WorkerPC.waitSignal, 1 - s.SignalIdx, passes⟩ hw
    have eT := total_set atTrigger s.workers i _
      ⟨WorkerPC.waitSignal, 1 - s.SignalIdx, passes⟩ hw
    simp only [awake, arrived, atTrigger, if_neg hne] at eA eC eT
    have hCN : total (arrived s.SignalIdx) s.workers = s.workers.length := by
      by_contra hne'
      rw [if_neg hne'] at hT
      omega
    rw [if_pos hCN] at hT
    have htr0 : s.triggers = s.iter := by omega
    refine ⟨by simpa [hlen] using h.pos, h.rel, h.noFail, h.other, ?_, ?_⟩
    · intro x hx hpc hidx
      simp only [TestState.NumThreads, hlen]
      rcases List.mem_or_eq_of_mem_set hx with hx | hx
      · exact h.lag x hx hpc hidx
      · subst hx
        cases hpc
    · rw [show s.mainPC = MainPC.wait from hm]
      refine ⟨hst, forall_mem_set _ _ _ hok ?_, ?_, ?_,
        Or.inr (by show s.triggers + 1 = s.iter + 1; omega), ?_, ?_⟩
      · exact Or.inr ⟨rfl, hpasses⟩
      · simp only [hlen]
        rw [show total (awake s.SignalIdx)
            (s.workers.set i ⟨WorkerPC.waitSignal, 1 - s.SignalIdx, passes⟩)
          = total (awake s.SignalIdx) s.workers by omega]
        exact hws
      · simp only []
        rw [show total (arrived s.SignalIdx)
            (s.workers.set i ⟨WorkerPC.waitSignal, 1 - s.SignalIdx, passes⟩)
          = total (arrived s.SignalIdx) s.workers by omega]
        exact hcnt
      · simp only [hms, htr0, if_true, Signal.Trigger]
        rw [if_neg (by omega)]
      · simp only [hlen]
        rw [show total (arrived s.SignalIdx)
            (s.workers.set i ⟨WorkerPC.waitSignal, 1 - s.SignalIdx, passes⟩)
          = total (arrived s.SignalIdx) s.workers by omega]
        rw [if_pos hCN]
        omega
  · simp [okRelease] at hok
  · simp [okJoin] at hok
/-- A wait on a signal that is not triggered blocks. -/
theorem Wait_zero (n : Int) : (⟨0, 0⟩ : Signal).Wait n = none := by
  simp [Signal.Wait]

/-- A wait on a triggered auto-reset signal that has woken `k` of `n` threads, `k < n`,
returns the signaled value and leaves the signal as after `k + 1` woken threads. -/
theorem Wait_signalOf (value : Int) (k n : Nat) (hv : value ≠ 0) (hk : k < n) :
    (signalOf value k n).Wait (n : Int) = some (value, signalOf value (k + 1) n) := by
  have h1 : signalOf value k n = ⟨value, (k : Int)⟩ := by
    unfold signalOf
    rw [if_neg (by omega)]
  rw [h1]
  unfold Signal.Wait
  simp only []
  rw [if_neg hv]
  unfold signalOf
  by_cases hk1 : k + 1 = n
  · rw [if_pos (by omega), if_pos hk1]
  · rw [if_neg (by omega), if_neg hk1]
    simp

/-- A worker that is woken by its worker signal keeps the invariant. -/
theorem waitSignal_inv (s s' : TestState) (i : Nat) (sidx : Int) (passes : Nat) (h : Inv s)
    (hw : s.workers[i]? = some ⟨WorkerPC.waitSignal, sidx, passes⟩)
    (hs : (match (s.m_WorkerThreadSignal sidx).Wait s.NumThreads with
      | none => none
      | some (SignaledValue, sig) =>
        some { s with
          m_WorkerThreadSignal := store s.m_WorkerThreadSignal sidx sig,
          workers := s.workers.set i
            ⟨if SignaledValue < 0 then WorkerPC.returned else WorkerPC.create,
              sidx, passes⟩ }) = some s') :
    Inv s' := by
  have hmem := List.getElem?_mem hw
  have hne := other_ne s.SignalIdx
  have hlen : ∀ w', (s.workers.set i w').length = s.workers.length :=
    fun _ => List.length_set _ _ _
  have hNT : s.NumThreads = (s.workers.length : Int) := rfl
  rcases phase_cases s h _ hmem with ⟨hp, hok⟩ | ⟨hm, hp, hok⟩ | ⟨hp, hok⟩ | ⟨hm, hp, hok⟩
  · -- between iterations the worker signal is not triggered
    simp only [okIdle] at hok
    rw [hok.2, hp.1, Wait_zero] at hs
    cases hs
  · simp only [okWait] at hok
    rcases hok with ⟨hsidx, hpasses⟩ | ⟨hsidx, hpasses⟩
    · subst hsidx
      obtain ⟨hst, hok, hws, hcnt, htr, hms, hT⟩ := hp
      have hAlt := total_lt_length (awake s.SignalIdx) (awake_le_one _) s.workers _ hmem
        (by simp [awake])
      rw [hws, hNT, Wait_signalOf 1 _ _ (by omega) hAlt] at hs
      simp only [Option.some.injEq] at hs
      subst hs
      have eA := total_set (awake s.SignalIdx) s.workers i _
        ⟨WorkerPC.create, s.SignalIdx, passes⟩ hw
      have eC := total_set (arrived s.SignalIdx) s.workers i _
        ⟨WorkerPC.create, s.SignalIdx, passes⟩ hw
      have eT := total_set atTrigger s.workers i _
        ⟨WorkerPC.create, s.SignalIdx, passes⟩ hw
      simp only [awake, arrived, atTrigger, if_true] at eA eC eT
      have hpc : (if (1 : Int) < 0 then WorkerPC.returned else WorkerPC.create)
          = WorkerPC.create := by
        rw [if_neg (by omega)]
      simp only [hpc]
      refine ⟨by simpa [hlen] using h.pos, h.rel, h.noFail, ?_, ?_, ?_⟩
      · simp only [store]
        rw [if_neg hne]
        exact h.other
      · intro x hx hpc' hidx
        simp only [TestState.NumThreads, hlen]
        rcases List.mem_or_eq_of_mem_set hx with hx | hx
        · exact h.lag x hx hpc' hidx
        · subst hx
          cases hpc'
      · rw [show s.mainPC = MainPC.wait from hm]
        refine ⟨hst, forall_mem_set _ _ _ hok ⟨rfl, hpasses⟩, ?_, ?_, htr, hms, ?_⟩
        · simp only [store, if_true, hlen]
          rw [show total (awake s.SignalIdx)
              (s.workers.set i ⟨WorkerPC.create, s.SignalIdx, passes⟩)
            = total (awake s.SignalIdx) s.workers + 1 by omega]
        · simp only []
          rw [show total (arrived s.SignalIdx)
              (s.workers.set i ⟨WorkerPC.create, s.SignalIdx, passes⟩)
            = total (arrived s.SignalIdx) s.workers by omega]
          exact hcnt
        · simp only [hlen]
          rw [show total (arrived s.SignalIdx)
              (s.workers.set i ⟨WorkerPC.create, s.SignalIdx, passes⟩)
            = total (arrived s.SignalIdx) s.workers by omega,
            show total atTrigger (s.workers.set i ⟨WorkerPC.create, s.SignalIdx, passes⟩)
            = total atTrigger s.workers by omega]
          exact hT
    · rw [hsidx, h.other, Wait_zero] at hs
      cases hs
  · simp only [okRelease] at hok
    rw [hok.2, h.other, Wait_zero] at hs
    cases hs
  · simp only [okJoin] at hok
    obtain ⟨hpasses, hsidx⟩ := hok
    subst hsidx
    obtain ⟨htr, hst, hms, hws, hok⟩ := hp
    have hRlt := total_lt_length isReturned isReturned_le_one s.workers _ hmem
      (by simp [isReturned])
    rw [hws, hNT, Wait_signalOf (-1) _ _ (by omega) hRlt] at hs
    simp only [Option.some.injEq] at hs
    subst hs
    have eR := total_set isReturned s.workers i _
      ⟨WorkerPC.returned, s.SignalIdx, passes⟩ hw
    simp only [isReturned] at eR
    have hpc : (if (-1 : Int) < 0 then WorkerPC.returned else WorkerPC.create)
        = WorkerPC.returned := by
      rw [if_pos (by omega)]
    simp only [hpc]
    refine ⟨by simpa [hlen] using h.pos, h.rel, h.noFail, ?_, ?_, ?_⟩
    · simp only [store]
      rw [if_neg hne]
      exact h.other
    · intro x hx hpc' hidx
      simp only [TestState.NumThreads, hlen]
      rcases List.mem_or_eq_of_mem_set hx with hx | hx
      · exact h.lag x hx hpc' hidx
      · subst hx
        cases hpc'
    · rw [show s.mainPC = MainPC.join from hm]
      refine ⟨htr, hst, hms, ?_, forall_mem_set _ _ _ hok ⟨hpasses, trivial⟩⟩
      simp only [store, if_true, hlen]
      rw [show total isReturned (s.workers.set i ⟨WorkerPC.returned, s.SignalIdx, passes⟩)
        = total isReturned s.workers + 1 by omega]

/-- Every step of a worker thread keeps the invariant. -/
theorem workerStep_inv (s s' : TestState) (i : Nat) (h : Inv s)
    (hs : workerStep s i = some s') : Inv s' := by
  unfold workerStep at hs
  cases hw : s.workers[i]? with
  | none =>
    rw [hw] at hs
    cases hs
  | some w =>
    rw [hw] at hs
    obtain ⟨pc, sidx, passes⟩ := w
    cases pc <;> simp only [] at hs
    · exact waitSignal_inv s s' i sidx passes h hw hs
    · injection hs with hs
      subst hs
      exact create_inv s i sidx passes h hw
    · injection hs with hs
      subst hs
      exact arrive_inv s i sidx passes h hw
    · have ha := assertOther_inv s i sidx passes h hw
      rw [ha.1] at hs
      simp only [Bool.false_eq_true, if_false] at hs
      injection hs with hs
      subst hs
      exact ha.2
    · injection hs with hs
      subst hs
      exact trigger_inv s i sidx passes h hw
    · by_cases hc : s.m_NumThreadsCompleted sidx < s.NumThreads
      · rw [if_pos hc] at hs
        injection hs with hs
        subst hs
        exact h
      · rw [if_neg hc] at hs
        injection hs with hs
        subst hs
        exact spin_exit_inv s i sidx passes h hw
    · cases hs

/-- Every scheduling decision keeps the invariant. -/
theorem testStep_inv (K : Nat) (s : TestState) (thread : Option Nat) (h : Inv s) :
    Inv (testStep K s thread) := by
  cases thread with
  | none =>
    simp only [testStep]
    cases hm : mainStep K s with
    | none => exact h
    | some s' => exact mainStep_inv K s s' h hm
  | some i =>
    simp only [testStep]
    cases hm : workerStep s i with
    | none => exact h
    | some s' => exact workerStep_inv s s' i h hm

/-- Every schedule keeps the invariant. -/
theorem runTest_inv (K : Nat) (schedule : List (Option Nat)) :
    ∀ s : TestState, Inv s → Inv (runTest K s schedule) := by
  induction schedule with
  | nil =>
    intro s h
    exact h
  | cons t ts ih =>
    intro s h
    exact ih _ (testStep_inv K s t h)

/-- The initial state satisfies the invariant. -/
theorem initialTest_inv (n : Nat) (c0 c1 : Int) (K : Nat) (hn : 0 < n) :
    Inv (initialTest n c0 c1 K) := by
  have hidle : Idle (initialTest n c0 c1 K) := by
    refine ⟨rfl, rfl, rfl, rfl, ?_⟩
    intro w hw
    simp only [initialTest, List.mem_replicate] at hw
    rw [hw.2]
    exact ⟨rfl, rfl⟩
  refine ⟨by simpa [initialTest] using hn, rfl, rfl, rfl, ?_, ?_⟩
  · intro w hw hpc
    simp only [initialTest, List.mem_replicate] at hw
    rw [hw.2] at hpc
    cases hpc
  · by_cases hK : 0 < K
    · simp only [initialTest, hK, if_true]
      exact hidle
    · simp only [initialTest, hK, if_false]
      exact hidle
/-- A count is at least one when some worker is counted. -/
theorem one_le_total (f : WorkerThread → Nat) (l : List WorkerThread) (w : WorkerThread)
    (hw : w ∈ l) (h1 : f w = 1) : 1 ≤ total f l := by
  by_contra hlt
  have := zero_of_total_eq_zero f l (by omega) w hw
  omega

/-- While the main thread waits, a worker has finished at most the pass of the running
iteration, and it has finished it when it has incremented the counter. -/
theorem okWait_passes (idx : Int) (iter : Nat) (w : WorkerThread) (h : okWait idx iter w) :
    iter ≤ w.passes ∧ w.passes ≤ iter + 1 ∧ (arrived idx w = 1 → w.passes = iter + 1)
      ∧ (atTrigger w = 1 → w.SignalIdx = idx) := by
  obtain ⟨pc, sidx, passes⟩ := w
  have hne := other_ne idx
  cases pc <;> simp only [okWait, arrived, atTrigger] at h ⊢
  case waitSignal =>
    rcases h with ⟨h1, h2⟩ | ⟨h1, h2⟩
    · rw [if_pos h1]
      omega
    · omega
  case spin =>
    rcases h with ⟨h1, h2⟩ | ⟨h1, h2⟩
    · rw [if_neg (by omega)]
      omega
    · omega
  all_goals omega

/-- What the invariant gives on the counters of starts, triggers and releases and on
the workers. -/
theorem inv_facts (s : TestState) (h : Inv s) :
    s.releases ≤ s.triggers
      ∧ s.triggers ≤ s.starts
      ∧ s.starts ≤ s.releases + 1
      ∧ (s.mainPC = MainPC.release → s.triggers = s.releases + 1)
      ∧ (∀ w ∈ s.workers, s.triggers ≤ w.passes ∧ w.passes ≤ s.starts)
      ∧ (∀ w ∈ s.workers, (w.pc = WorkerPC.assertOther ∨ w.pc = WorkerPC.trigger) →
          s.m_NumThreadsCompleted w.SignalIdx = s.NumThreads
            ∧ s.triggers + 1 = s.starts
            ∧ total atTrigger s.workers = 1
            ∧ ∀ v ∈ s.workers, v.passes = s.starts)
      ∧ s.assertFailures = 0 := by
  have hp := h.phase
  have hrel := h.rel
  have hidle : Idle s → s.mainPC ≠ MainPC.release →
      s.releases ≤ s.triggers
        ∧ s.triggers ≤ s.starts
        ∧ s.starts ≤ s.releases + 1
        ∧ (s.mainPC = MainPC.release → s.triggers = s.releases + 1)
        ∧ (∀ w ∈ s.workers, s.triggers ≤ w.passes ∧ w.passes ≤ s.starts)
        ∧ (∀ w ∈ s.workers, (w.pc = WorkerPC.assertOther ∨ w.pc = WorkerPC.trigger) →
            s.m_NumThreadsCompleted w.SignalIdx = s.NumThreads
              ∧ s.triggers + 1 = s.starts
              ∧ total atTrigger s.workers = 1
              ∧ ∀ v ∈ s.workers, v.passes = s.starts)
        ∧ s.assertFailures = 0 := by
    rintro ⟨_, _, htr, hst, hok⟩ hm
    refine ⟨by omega, by omega, by omega, fun hm' => absurd hm' hm, ?_, ?_, h.noFail⟩
    · intro w hw
      have := (hok w hw).1
      omega
    · intro w hw hpc
      have := (hok w hw).2
      rcases hpc with hpc | hpc <;> rw [hpc] at this <;> exact absurd this id
  cases hm : s.mainPC <;> rw [hm] at hp <;> simp only [] at hp
  · exact hm ▸ hidle hp (by rw [hm]; exact fun h => MainPC.noConfusion h)
  · exact hm ▸ hidle hp.1 (by rw [hm]; exact fun h => MainPC.noConfusion h)
  · obtain ⟨hst, hok, hws, hcnt, htr, hms, hT⟩ := hp
    have hTle : total atTrigger s.workers + (s.triggers - s.iter) ≤ 1 := by
      rw [hT]
      split <;> omega
    refine ⟨by omega, by omega, by omega, fun hm' => MainPC.noConfusion hm', ?_, ?_,
      h.noFail⟩
    · intro w hw
      have hw1 := okWait_passes _ _ w (hok w hw)
      refine ⟨?_, by omega⟩
      rcases htr with htr | htr
      · omega
      · have hC : total (arrived s.SignalIdx) s.workers = s.workers.length := by
          by_contra hne'
          rw [if_neg hne'] at hT
          omega
        have := hw1.2.2.1 (one_of_total_eq_length _ (arrived_le_one _) _ hC w hw)
        omega
    · intro w hw hpc
      have hat : atTrigger w = 1 := by
        unfold atTrigger
        rcases hpc with hpc | hpc <;> rw [hpc]
      have h1 := one_le_total atTrigger s.workers w hw hat
      have hC : total (arrived s.SignalIdx) s.workers = s.workers.length := by
        by_contra hne'
        rw [if_neg hne'] at hT
        omega
      have hidx := (okWait_passes _ _ w (hok w hw)).2.2.2 hat
      refine ⟨?_, by omega, by omega, ?_⟩
      · rw [hidx, hcnt, hC]
        rfl
      · intro v hv
        have := (okWait_passes _ _ v (hok v hv)).2.2.1
          (one_of_total_eq_length _ (arrived_le_one _) _ hC v hv)
        omega
  · obtain ⟨hst, htr, hws, hms, hcnt, hok⟩ := hp
    refine ⟨by omega, by omega, by omega, fun _ => by omega, ?_, ?_, h.noFail⟩
    · intro w hw
      have := (hok w hw).1
      omega
    · intro w hw hpc
      have := (hok w hw).2
      rcases hpc with hpc | hpc <;> rw [hpc] at this <;> exact absurd this id
  · exact hm ▸ hidle hp (by rw [hm]; exact fun h => MainPC.noConfusion h)
  · obtain ⟨htr, hst, hms, hws, hok⟩ := hp
    refine ⟨by omega, by omega, by omega, fun hm' => MainPC.noConfusion hm', ?_, ?_,
      h.noFail⟩
    · intro w hw
      have := (hok w hw).1
      omega
    · intro w hw hpc
      have := (hok w hw).2
      rcases hpc with hpc | hpc <;> rw [hpc] at this <;> exact absurd this id

/-- A step of the main thread does not change the number of worker threads. -/
theorem mainStep_length (K : Nat) (s s' : TestState) (hs : mainStep K s = some s') :
    s'.workers.length = s.workers.length := by
  unfold mainStep at hs
  cases hm : s.mainPC <;> rw [hm] at hs <;> simp only [] at hs
  case wait =>
    cases hW : s.m_MainThreadSignal.Wait 1 with
    | none =>
      rw [hW] at hs
      cases hs
    | some r =>
      rw [hW] at hs
      injection hs with hs
      subst hs
      rfl
  case join => cases hs
  all_goals
    injection hs with hs
    subst hs
    rfl

/-- A step of a worker thread does not change the number of worker threads. -/
theorem workerStep_length (s s' : TestState) (i : Nat) (hs : workerStep s i = some s') :
    s'.workers.length = s.workers.length := by
  unfold workerStep at hs
  cases hw : s.workers[i]? with
  | none =>
    rw [hw] at hs
    cases hs
  | some w =>
    rw [hw] at hs
    obtain ⟨pc, sidx, passes⟩ := w
    cases pc <;> simp only [] at hs
    case waitSignal =>
      cases hW : (s.m_WorkerThreadSignal sidx).Wait s.NumThreads with
      | none =>
        rw [hW] at hs
        cases hs
      | some r =>
        rw [hW] at hs
        injection hs with hs
        subst hs
        exact List.length_set _ _ _
    case assertOther =>
      split at hs <;> injection hs with hs <;> subst hs <;> exact List.length_set _ _ _
    case spin =>
      split at hs <;> injection hs with hs <;> subst hs
      · rfl
      · exact List.length_set _ _ _
    case returned => cases hs
    all_goals
      injection hs with hs
      subst hs
      exact List.length_set _ _ _

/-- The number of worker threads never changes. -/
theorem testStep_length (K : Nat) (s : TestState) (thread : Option Nat) :
    (testStep K s thread).workers.length = s.workers.length := by
  cases thread with
  | none =>
    simp only [testStep]
    cases hm : mainStep K s with
    | none => rfl
    | some s' => exact mainStep_length K s s' hm
  | some i =>
    simp only [testStep]
    cases hm : workerStep s i with
    | none => rfl
    | some s' => exact workerStep_length s s' i hm

/-- The number of worker threads is the same after every schedule. -/
theorem runTest_length (K : Nat) (schedule : List (Option Nat)) :
    ∀ s : TestState, (runTest K s schedule).workers.length = s.workers.length := by
  induction schedule with
  | nil =>
    intro s
    rfl
  | cons t ts ih =>
    intro s
    exact (ih _).trans (testStep_length K s t)

/-! ## The barrier between iterations -/

/-- C11: in the multithreaded creation test, on any host, in either build, for any
initial content of the two counters and under every interleaving of the main thread
and the worker threads: at every moment the calls of `ReleaseResources` are at most
the triggers of the main-thread signal, which are at most the iterations started, which
are at most one more than the calls of `ReleaseResources`; so each iteration sees
exactly one trigger, `ReleaseResources` of an iteration comes after that trigger and
before the start of the next iteration, and when the main thread is about to call it
the trigger of the iteration has happened. Every worker has finished the creation pass
of every iteration whose trigger has happened. A worker in the triggering branch is
the only one there, the counter it incremented equals the thread count, every worker
has finished the creation pass of the running iteration, and the trigger of that
iteration has not happened yet. The assertion on the other worker signal never
fails. -/
theorem barrier_separates_iterations (numCores : Nat) (debug : Bool) (c0 c1 : Int)
    (schedule : List (Option Nat)) :
    (testRun numCores debug c0 c1 schedule).releases
        ≤ (testRun numCores debug c0 c1 schedule).triggers
      ∧ (testRun numCores debug c0 c1 schedule).triggers
        ≤ (testRun numCores debug c0 c1 schedule).starts
      ∧ (testRun numCores debug c0 c1 schedule).starts
        ≤ (testRun numCores debug c0 c1 schedule).releases + 1
      ∧ ((testRun numCores debug c0 c1 schedule).mainPC = MainPC.release →
          (testRun numCores debug c0 c1 schedule).triggers
            = (testRun numCores debug c0 c1 schedule).releases + 1)
      ∧ (∀ w ∈ (testRun numCores debug c0 c1 schedule).workers,
          (testRun numCores debug c0 c1 schedule).triggers ≤ w.passes
            ∧ w.passes ≤ (testRun numCores debug c0 c1 schedule).starts)
      ∧ (∀ w ∈ (testRun numCores debug c0 c1 schedule).workers,
          (w.pc = WorkerPC.assertOther ∨ w.pc = WorkerPC.trigger) →
          (testRun numCores debug c0 c1 schedule).m_NumThreadsCompleted w.SignalIdx
              = (numThreads numCores : Int)
            ∧ (testRun numCores debug c0 c1 schedule).triggers + 1
              = (testRun numCores debug c0 c1 schedule).starts
            ∧ total atTrigger (testRun numCores debug c0 c1 schedule).workers = 1
            ∧ ∀ v ∈ (testRun numCores debug c0 c1 schedule).workers,
                v.passes = (testRun numCores debug c0 c1 schedule).starts)
      ∧ (testRun numCores debug c0 c1 schedule).assertFailures = 0
      ∧ (testRun numCores debug c0 c1 schedule).workers.length = numThreads numCores := by
  have hn : 0 < numThreads numCores := by
    unfold numThreads
    omega
  have hinv : Inv (testRun numCores debug c0 c1 schedule) :=
    runTest_inv _ schedule _ (initialTest_inv _ c0 c1 _ hn)
  have hlen : (testRun numCores debug c0 c1 schedule).workers.length = numThreads numCores := by
    unfold testRun
    rw [runTest_length]
    simp [initialTest]
  obtain ⟨h1, h2, h3, h4, h5, h6, h7⟩ := inv_facts _ hinv
  refine ⟨h1, h2, h3, h4, h5, ?_, h7, hlen⟩
  intro w hw hpc
  obtain ⟨g1, g2, g3, g4⟩ := h6 w hw hpc
  refine ⟨?_, g2, g3, g4⟩
  rw [g1, TestState.NumThreads, hlen]

set_option maxRecDepth 100000 in
/-- Witness for C11: on a host with 4 cores in a `_DEBUG` build, the round-robin
schedule has, after 8 rounds, completed the first iteration with one trigger and one
call of `ReleaseResources`, and after 3 rounds it is inside the first iteration with
neither. -/
theorem barrier_separates_iterations_witness :
    (testRun 4 true 77 (-3) (roundRobin4 8)).releases
        ≤ (testRun 4 true 77 (-3) (roundRobin4 8)).triggers
      ∧ (testRun 4 true 77 (-3) (roundRobin4 8)).triggers = 1
      ∧ (testRun 4 true 77 (-3) (roundRobin4 8)).releases = 1
      ∧ (testRun 4 true 77 (-3) (roundRobin4 8)).starts = 1
      ∧ (testRun 4 true 77 (-3) (roundRobin4 3)).starts = 1
      ∧ (testRun 4 true 77 (-3) (roundRobin4 3)).triggers = 0
      ∧ (testRun 4 true 77 (-3) (roundRobin4 3)).releases = 0 :=
  ⟨(barrier_separates_iterations 4 true 77 (-3) (roundRobin4 8)).1,
    by decide, by decide, by decide, by decide, by decide, by decide⟩

end Diligent
